import Mathlib

set_option autoImplicit false
set_option linter.unusedSectionVars false

namespace ecs

/-! Shallow embedding of the header `src/ECS.h` (C++ namespace `ecs`), modelling
the library as compiled with `DEBUG` defined, so that every guard branch in the
source is active; this is the configuration whose warning/error reports the
specification describes.  Containers are modelled as follows:
`std::unordered_map` as an association list with unique keys (`mapLookup`,
`mapInsert` and `mapErase` act on the first occurrence of a key, which
coincides with map behaviour on unique-key lists), `std::set` as a list used up
to membership, `std::stack` as a list whose head is the top, `std::vector` as a
`List`, and `std::bitset<ECS_MAX_COMPONENTS>` as the `Finset Nat` of its set
bit positions (registration keeps every component id below the cap of 100).
Machine integers are `Nat` with an explicit `% 2 ^ 32` (resp. `% 2 ^ 16`)
wherever the source arithmetic can wrap.  Run-time type names
(`typeid(T).name()`) are abstracted to `Nat` tokens, and the stored component
data to a single value type `Val`; no modelled claim depends on the data. -/

/-- Entities as IDs (`uint32_t` in the source); 0 will never be a valid ID. -/
abbrev Entity := Nat

/-- Signatures as bitsets, where each component has its own bit: modelled as
the set of set bit positions. -/
abbrev Signature := Finset Nat

/-- A component type's run-time name, abstracted to a token. -/
abbrev CName := Nat

/-- A system type's run-time name, abstracted to a token. -/
abbrev SName := Nat

/-- The stored component data, abstracted to one value type. -/
abbrev Val := Int

/-- `ECS_MAX_COMPONENTS` with its default value. -/
def ECS_MAX_COMPONENTS : Nat := 100

/-- `UINT32_MAX`. -/
def UINT32MAX : Nat := 2 ^ 32 - 1

/-- The console reports (warnings, and errors accompanied by a thrown
`std::runtime_error`) that the DEBUG build can emit.  A report also stands in
for the two places where the source produces no value at all: the refill loop
that never terminates, and exceptions that abort the call. -/
inductive Report where
  | warnRegisterSystemDuplicate
  | warnSetSignatureUnregistered
  | warnSetSignatureTwice
  | errTooManyEntities
  | warnDestroyEntityNotFound
  | warnAddComponentAlreadyHas
  | warnRemoveComponentDoesNotHave
  | errGetComponentNoComponent
  | warnRegisterComponentDuplicate
  | errTooManyComponents
  | errComponentNotRegistered
  | errGetComponentIDNotRegistered
  | errAddComponentEntityNotExist
  | errRemoveComponentEntityNotExist
  | errRefillLoopDiverges
  deriving DecidableEq

section MapsAndSets

variable {K V A : Type} [DecidableEq K] [DecidableEq A]

/-- Lookup in an association-list map (first binding of the key, matching
`std::unordered_map` behaviour on unique-key lists). -/
def mapLookup : List (K × V) → K → Option V
  | [], _ => none
  | (a, b) :: t, k => if a = k then some b else mapLookup t k

/-- Write `m[k] = v`: replace the first binding of `k`, or append a new one. -/
def mapInsert : List (K × V) → K → V → List (K × V)
  | [], k, v => [(k, v)]
  | (a, b) :: t, k, v => if a = k then (k, v) :: t else (a, b) :: mapInsert t k v

/-- Erase the first binding of `k`, as `unordered_map::erase` on unique keys. -/
def mapErase : List (K × V) → K → List (K × V)
  | [], _ => []
  | (a, b) :: t, k => if a = k then t else (a, b) :: mapErase t k

/-- Read through `operator[]` with the value a default-constructed entry would
have; the insertion side effect is modelled separately where it is relevant. -/
def lookupD (m : List (K × V)) (k : K) (d : V) : V :=
  (mapLookup m k).getD d

/-- The keys of an association list. -/
def mapKeys (m : List (K × V)) : List K :=
  m.map Prod.fst

/-- The unique-keys invariant every `std::unordered_map` maintains. -/
def NodupKeys (m : List (K × V)) : Prop :=
  (mapKeys m).Nodup

/-- `std::set::insert` on a list model: no-op when the element is present. -/
def setInsert (l : List A) (x : A) : List A :=
  if x ∈ l then l else l ++ [x]

end MapsAndSets

/-- A component array class is created for each component type
(`ComponentArray<T>`). -/
structure ComponentArray (T : Type) where
  /-- Packed array of all components of type T (`std::vector<T>`). -/
  componentArray : List T
  /-- Map from an entity id to the index of its component in `componentArray`. -/
  entityToIndex : List (Entity × Nat)
  /-- Map from a component's index in `componentArray` to its entity's id. -/
  indexToEntity : List (Nat × Entity)
  deriving DecidableEq

namespace ComponentArray

variable {T : Type}

/-- Returns true if the entity has this type of component
(`entityToIndex.count(entity) > 0`). -/
def HasComponent (a : ComponentArray T) (entity : Entity) : Bool :=
  (mapLookup a.entityToIndex entity).isSome

/-- Add a component to entity.  The DEBUG branch warns and returns early when
the entity already has the component; otherwise the entity is appended at the
back and both index maps are updated. -/
def AddComponent (a : ComponentArray T) (entity : Entity) (component : T) :
    ComponentArray T × Option Report :=
  if a.HasComponent entity then
    (a, some .warnAddComponentAlreadyHas)
  else
    ({ componentArray := a.componentArray ++ [component],
       entityToIndex := mapInsert a.entityToIndex entity a.componentArray.length,
       indexToEntity := mapInsert a.indexToEntity a.componentArray.length entity },
     none)

/-- Removes a component from entity: swap-remove with the last element.  The
reads `entityToIndex[entity]`, `indexToEntity[size - 1]` and
`componentArray.back()` go through `getD`; their defaults are unreachable when
the DEBUG guard passed and the store is well formed (`componentArray.back()` on
an empty vector would be undefined behaviour in the source). -/
def RemoveComponent [Inhabited T] (a : ComponentArray T) (entity : Entity) :
    ComponentArray T × Option Report :=
  if ¬ a.HasComponent entity then
    (a, some .warnRemoveComponentDoesNotHave)
  else
    let deletedIndex := (mapLookup a.entityToIndex entity).getD 0
    let lastEntity := (mapLookup a.indexToEntity (a.componentArray.length - 1)).getD 0
    ({ componentArray :=
         (a.componentArray.set deletedIndex
           (a.componentArray.getD (a.componentArray.length - 1) default)).dropLast,
       entityToIndex := mapErase (mapInsert a.entityToIndex lastEntity deletedIndex) entity,
       indexToEntity := mapErase (mapInsert a.indexToEntity deletedIndex lastEntity)
         (a.componentArray.length - 1) },
     none)

/-- Returns the component of entity (the source returns a mutable reference;
the DEBUG branch throws when the entity lacks the component). -/
def GetComponent [Inhabited T] (a : ComponentArray T) (entity : Entity) : Except Report T :=
  if ¬ a.HasComponent entity then
    .error .errGetComponentNoComponent
  else
    .ok (a.componentArray.getD ((mapLookup a.entityToIndex entity).getD 0) default)

end ComponentArray

/-- The translation unit's global state: entity management data, component
management data and system management data, in source order.  A `System` object
is just its set of matching entities, and the `shared_ptr<System>` values of
the `systems` map are modelled by those sets. -/
structure ECSState where
  /-- All currently available entity IDs (`std::stack`, head = top). -/
  availableEntities : List Entity
  /-- All the currently in use entities (`std::set`). -/
  usedEntities : List Entity
  /-- A map of an entity's ID to its signature. -/
  entitySignatures : List (Entity × Signature)
  /-- How many entities are currently reserved (`uint32_t`). -/
  entityCount : Nat
  /-- A map of every component's name to its corresponding component array. -/
  componentArrays : List (CName × ComponentArray Val)
  /-- A map from a component's name to its ID (`uint16_t`). -/
  componentTypeToID : List (CName × Nat)
  /-- A map from a component's ID to its name. -/
  componentIDToType : List (Nat × CName)
  /-- The amount of components registered; also the next available ID. -/
  componentCount : Nat
  /-- Map of each system, by type name, to its set of matching entities. -/
  systems : List (SName × List Entity)
  /-- Map of each system's signature accessible by their type name. -/
  systemSignatures : List (SName × Signature)
  deriving DecidableEq

/-- The state of the globals at program start. -/
def initState : ECSState :=
  { availableEntities := [], usedEntities := [], entitySignatures := [],
    entityCount := 0, componentArrays := [], componentTypeToID := [],
    componentIDToType := [], componentCount := 0, systems := [],
    systemSignatures := [] }

/-- Checks if an entity exists (`usedEntities.find(entity) != end()`). -/
def EntityExists (s : ECSState) (entity : Entity) : Bool :=
  s.usedEntities.contains entity

/-- Register a system of type T and return a pointer to the created instance.
The DEBUG branch warns on a duplicate registration and returns `nullptr`,
modelled as `none`; otherwise the new system (with an empty entity set) is
installed and returned. -/
def RegisterSystem (s : ECSState) (systemType : SName) :
    ECSState × Option Report × Option (List Entity) :=
  if (mapLookup s.systems systemType).isSome then
    (s, some .warnRegisterSystemDuplicate, none)
  else
    ({ s with systems := mapInsert s.systems systemType [] }, none, some [])

/-- Sets the signature (required components) for the system, with the two
DEBUG guards (unregistered system; signature already set). -/
def SetSystemSignature (s : ECSState) (systemType : SName) (signature : Signature) :
    ECSState × Option Report :=
  if ¬ (mapLookup s.systems systemType).isSome then
    (s, some .warnSetSignatureUnregistered)
  else if (mapLookup s.systemSignatures systemType).isSome then
    (s, some .warnSetSignatureTwice)
  else
    ({ s with systemSignatures := mapInsert s.systemSignatures systemType signature }, none)

/-- One iteration of the loop in `_OnEntitySignatureChanged`, processing one
system: `systemSignatures[system.first]` is an `operator[]` access, so both its
read (`lookupD _ _ ∅`) and its default-insertion side effect (`mapInsert` of
the value just read) are modelled; the entity is then inserted into or erased
from the system's set according to the match rule
`(signature & systemSignature) == systemSignature`.  The source inlines this
body; it is named here so the fold can be reasoned about. -/
def _OSCStep (signature : Signature) (entity : Entity)
    (acc : List (SName × Signature) × List (SName × List Entity))
    (p : SName × List Entity) :
    List (SName × Signature) × List (SName × List Entity) :=
  let sysSig := lookupD acc.1 p.1 ∅
  let newSigs := mapInsert acc.1 p.1 sysSig
  if signature ∩ sysSig = sysSig then
    (newSigs, acc.2 ++ [(p.1, setInsert p.2 entity)])
  else
    (newSigs, acc.2 ++ [(p.1, p.2.erase entity)])

/-- Implementation internal function, called whenever an entity's signature
changes.  Binding `const Signature& signature = entitySignatures[entity]` is an
`operator[]` access: the read is `lookupD _ _ ∅` and the default-insertion side
effect is the `mapInsert` of that same value.  The loop over every system is
the fold of `_OSCStep`.  The source iterates the `systems` hash map in
unspecified order; the model iterates in list order, and every per-system
update is independent of the others, so the order cannot be observed through
the resulting maps' lookups. -/
def _OnEntitySignatureChanged (s : ECSState) (entity : Entity) : ECSState :=
  let signature := lookupD s.entitySignatures entity ∅
  let entitySigs := mapInsert s.entitySignatures entity signature
  let r := s.systems.foldl (_OSCStep signature entity) (s.systemSignatures, [])
  { s with entitySignatures := entitySigs, systems := r.2, systemSignatures := r.1 }

/-- Returns a new entity with no components.  The DEBUG guard compares the
`uint32_t` counter against `UINT32_MAX`, which can never be exceeded.  When the
stack of available IDs is empty, a batch of 100 fresh IDs is pushed, `i` from
`entityCount + 99` down to `entityCount` (a `size_t` truncated to `uint32_t` on
push, hence the `% 2 ^ 32`); when the incremented counter has wrapped to 0 that
refill loop's condition `i >= 0` holds forever and the call never returns,
which is modelled as the error result `errRefillLoopDiverges`. -/
def NewEntity (s : ECSState) : ECSState × Except Report Entity :=
  if s.entityCount > UINT32MAX then
    (s, .error .errTooManyEntities)
  else
    let c := (s.entityCount + 1) % 2 ^ 32
    if s.availableEntities.isEmpty ∧ c = 0 then
      ({ s with entityCount := c }, .error .errRefillLoopDiverges)
    else
      let avail :=
        if s.availableEntities.isEmpty then
          (List.range 100).map (fun j => (c + j) % 2 ^ 32)
        else s.availableEntities
      match avail with
      | [] => ({ s with entityCount := c }, .error .errRefillLoopDiverges)
      | entity :: rest =>
        ({ s with entityCount := c,
                  availableEntities := rest,
                  usedEntities := setInsert s.usedEntities entity,
                  entitySignatures := mapInsert s.entitySignatures entity ∅ },
         .ok entity)

/-- One iteration of the component-deletion loop in `DestroyEntity`: when bit
`i` of the entity's signature is set, run `RemoveComponent` of the store named
`componentIDToType[i]`.  Neither lookup can miss in a reachable state; if one
did, the source would call through a null `shared_ptr` (undefined behaviour),
so the fall-through arms of the model are unreachable.  The source inlines
this body; it is named here so the fold can be reasoned about. -/
def _DestroyStep (idToType : List (Nat × CName)) (sig : Signature) (entity : Entity)
    (arrs : List (CName × ComponentArray Val)) (i : Nat) :
    List (CName × ComponentArray Val) :=
  if i ∈ sig then
    match mapLookup idToType i with
    | some cname =>
      match mapLookup arrs cname with
      | some arr => mapInsert arrs cname (arr.RemoveComponent entity).1
      | none => arrs
    | none => arrs
  else arrs

/-- Delete an entity and all of its components.  For every component id `i`
below `componentCount` whose bit is set in the entity's signature, the matching
store's `RemoveComponent` runs (the fold of `_DestroyStep`); the signature is
then reset, the change is propagated to the systems, and the ID is recycled.
The `uint32_t` decrement of `entityCount` wraps at 0. -/
def DestroyEntity (s : ECSState) (entity : Entity) : ECSState × Option Report :=
  if ¬ EntityExists s entity then
    (s, some .warnDestroyEntityNotFound)
  else
    let sig := lookupD s.entitySignatures entity ∅
    let arrays := (List.range s.componentCount).foldl
      (_DestroyStep s.componentIDToType sig entity) s.componentArrays
    let s1 := { s with componentArrays := arrays,
                       entitySignatures := mapInsert s.entitySignatures entity ∅ }
    let s2 := _OnEntitySignatureChanged s1 entity
    ({ s2 with entitySignatures := mapErase s2.entitySignatures entity,
               usedEntities := s2.usedEntities.erase entity,
               availableEntities := entity :: s2.availableEntities,
               entityCount := if s2.entityCount = 0 then UINT32MAX else s2.entityCount - 1 },
     none)

/-- Register a new component of type T, with the DEBUG guards (duplicate
registration; component cap).  The `uint16_t` counter increment is taken mod
`2 ^ 16` (unreachable wrap, as the cap keeps it at most 100). -/
def RegisterComponent (s : ECSState) (componentType : CName) : ECSState × Option Report :=
  if (mapLookup s.componentArrays componentType).isSome then
    (s, some .warnRegisterComponentDuplicate)
  else if s.componentCount ≥ ECS_MAX_COMPONENTS then
    (s, some .errTooManyComponents)
  else
    ({ s with
        componentTypeToID := mapInsert s.componentTypeToID componentType s.componentCount,
        componentIDToType := mapInsert s.componentIDToType s.componentCount componentType,
        componentArrays := mapInsert s.componentArrays componentType ⟨[], [], []⟩,
        componentCount := (s.componentCount + 1) % 2 ^ 16 },
     none)

/-- Implementation internal function: the component array of type T, or the
DEBUG "not registered" error. -/
def _GetComponentArray (s : ECSState) (componentType : CName) :
    Except Report (ComponentArray Val) :=
  match mapLookup s.componentArrays componentType with
  | none => .error .errComponentNotRegistered
  | some arr => .ok arr

/-- Get the ID of a component.  The DEBUG guard checks `componentArrays`; the
body then reads `componentTypeToID[name]` through `operator[]`, whose
default-constructed value 0 is modelled by `getD 0` (unreachable once the guard
passed, for states whose registration maps are consistent). -/
def GetComponentID (s : ECSState) (componentType : CName) : Except Report Nat :=
  if ¬ (mapLookup s.componentArrays componentType).isSome then
    .error .errGetComponentIDNotRegistered
  else
    .ok ((mapLookup s.componentTypeToID componentType).getD 0)

/-- Add a component to entity.  The source is declared to return `T&` — a
reference to that component — but executes no return statement on its
successful path (it falls off the end of the function after propagating the
signature change), so the produced value is modelled as an `Option Val` that is
`none` wherever no return statement executes: on both DEBUG throw paths and on
the successful path.  Note that when the inner `ComponentArray::AddComponent`
warns and returns early, the outer function still sets the signature bit and
still propagates the signature change. -/
def AddComponent (s : ECSState) (componentType : CName) (entity : Entity) (component : Val) :
    ECSState × Option Report × Option Val :=
  if ¬ EntityExists s entity then
    (s, some .errAddComponentEntityNotExist, none)
  else
    match mapLookup s.componentArrays componentType with
    | none => (s, some .errComponentNotRegistered, none)
    | some arr =>
      let ar := arr.AddComponent entity component
      let cid := (mapLookup s.componentTypeToID componentType).getD 0
      let s1 := { s with
        componentArrays := mapInsert s.componentArrays componentType ar.1,
        entitySignatures := mapInsert s.entitySignatures entity
          (insert cid (lookupD s.entitySignatures entity ∅)) }
      (_OnEntitySignatureChanged s1 entity, ar.2, none)

/-- Remove a component of type T from entity.  As in `AddComponent`, when the
inner `ComponentArray::RemoveComponent` warns and returns early, the outer
function still clears the signature bit and propagates the change. -/
def RemoveComponent (s : ECSState) (componentType : CName) (entity : Entity) :
    ECSState × Option Report :=
  if ¬ EntityExists s entity then
    (s, some .errRemoveComponentEntityNotExist)
  else
    match mapLookup s.componentArrays componentType with
    | none => (s, some .errComponentNotRegistered)
    | some arr =>
      let ar := arr.RemoveComponent entity
      let cid := (mapLookup s.componentTypeToID componentType).getD 0
      let s1 := { s with
        componentArrays := mapInsert s.componentArrays componentType ar.1,
        entitySignatures := mapInsert s.entitySignatures entity
          ((lookupD s.entitySignatures entity ∅).erase cid) }
      (_OnEntitySignatureChanged s1 entity, ar.2)

/-- One public call of the library, with its arguments. -/
inductive Op where
  | registerComponent (componentType : CName)
  | registerSystem (systemType : SName)
  | setSystemSignature (systemType : SName) (signature : Signature)
  | newEntity
  | destroyEntity (entity : Entity)
  | addComponent (componentType : CName) (entity : Entity) (component : Val)
  | removeComponent (componentType : CName) (entity : Entity)

/-- Execute one public call, keeping only the resulting global state. -/
def step (s : ECSState) : Op → ECSState
  | .registerComponent c => (RegisterComponent s c).1
  | .registerSystem t => (RegisterSystem s t).1
  | .setSystemSignature t sg => (SetSystemSignature s t sg).1
  | .newEntity => (NewEntity s).1
  | .destroyEntity e => (DestroyEntity s e).1
  | .addComponent c e v => (AddComponent s c e v).1
  | .removeComponent c e => (RemoveComponent s c e).1

/-- The global state reached by a sequence of public calls from program start. -/
def run (ops : List Op) : ECSState :=
  ops.foldl step initState

/-- Well-formedness of one component store: the two index maps are mutually
inverse, indices are exactly the positions of the dense array, and keys are
unique.  Stated over the list entries so that it is decidable on concrete
stores. -/
def ComponentArray.WF {T : Type} (a : ComponentArray T) : Prop :=
  (∀ p ∈ a.entityToIndex, mapLookup a.indexToEntity p.2 = some p.1) ∧
  (∀ q ∈ a.indexToEntity, mapLookup a.entityToIndex q.2 = some q.1) ∧
  (∀ q ∈ a.indexToEntity, q.1 < a.componentArray.length) ∧
  (∀ i < a.componentArray.length, (mapLookup a.indexToEntity i).isSome = true) ∧
  NodupKeys a.entityToIndex ∧ NodupKeys a.indexToEntity

/-- The allocator's bookkeeping: the available stack and the used set together
hold exactly the IDs `1 .. 100 * k` handed out in batches so far (each exactly
once), and the entity counter counts the used set. -/
def AllocInv (s : ECSState) : Prop :=
  ∃ k : Nat, 100 * k < 2 ^ 32 ∧
    (s.availableEntities ++ s.usedEntities).Perm ((List.range (100 * k)).map (· + 1)) ∧
    s.entityCount = s.usedEntities.length

/-- Consistency of the three registration maps: a name has a store iff it has
an id, the name-to-id and id-to-name maps are mutually inverse, ids stay below
the counter, the counter stays below the cap, and keys are unique. -/
def RegConsistent (s : ECSState) : Prop :=
  (∀ c : CName,
      (mapLookup s.componentArrays c).isSome = (mapLookup s.componentTypeToID c).isSome) ∧
  (∀ (c : CName) (i : Nat), mapLookup s.componentTypeToID c = some i →
      mapLookup s.componentIDToType i = some c ∧ i < s.componentCount) ∧
  (∀ (i : Nat) (c : CName), mapLookup s.componentIDToType i = some c →
      mapLookup s.componentTypeToID c = some i) ∧
  s.componentCount ≤ ECS_MAX_COMPONENTS ∧
  NodupKeys s.componentArrays ∧ NodupKeys s.componentTypeToID ∧ NodupKeys s.componentIDToType

/-- Signature consistency: for every live entity and every registered
component type, the type's bit is set in the entity's signature exactly when
the type's store holds a component for the entity. -/
def SigConsistent (s : ECSState) : Prop :=
  ∀ e ∈ s.usedEntities, ∀ (c : CName) (i : Nat) (arr : ComponentArray Val),
    mapLookup s.componentTypeToID c = some i →
    mapLookup s.componentArrays c = some arr →
    (i ∈ lookupD s.entitySignatures e ∅ ↔ arr.HasComponent e = true)

/-- Stores only hold components of live entities. -/
def StoresOnlyLive (s : ECSState) : Prop :=
  ∀ p ∈ s.componentArrays, ∀ e : Entity,
    (p.2 : ComponentArray Val).HasComponent e = true → e ∈ s.usedEntities

/-- All signature bits lie below the registration counter. -/
def SigBound (s : ECSState) : Prop :=
  ∀ e : Entity, lookupD s.entitySignatures e ∅ ⊆ Finset.range s.componentCount

/-- Every store in the registry is well formed. -/
def StoresWF (s : ECSState) : Prop :=
  ∀ p ∈ s.componentArrays, (p.2 : ComponentArray Val).WF

/-- System bookkeeping: matched sets have no duplicates and the two system
maps have unique keys. -/
def SysWF (s : ECSState) : Prop :=
  (∀ p ∈ s.systems, (p.2 : List Entity).Nodup) ∧
  NodupKeys s.systems ∧ NodupKeys s.systemSignatures

/-- The inductive invariant of every reachable (within-capacity) state. -/
def Inv (s : ECSState) : Prop :=
  AllocInv s ∧ RegConsistent s ∧ StoresWF s ∧ SigConsistent s ∧ StoresOnlyLive s ∧
  SigBound s ∧ SysWF s ∧ NodupKeys s.entitySignatures

/-- The match rule holds between entity `e` and every registered system of
state `s`: `e` is in a system's matched set iff the system's signature is
contained in `e`'s. -/
def MatchedFor (s : ECSState) (e : Entity) : Prop :=
  ∀ p ∈ s.systems,
    (e ∈ (p.2 : List Entity) ↔ lookupD s.systemSignatures p.1 ∅ ⊆ lookupD s.entitySignatures e ∅)

/-- The signature map's domain is exactly the live set: an entity has an
entry in `entitySignatures` iff it is currently live (`NewEntity` inserts the
entry, `DestroyEntity` erases it, and the `operator\x5b\x5d` side effects only
touch the entity being mutated, which is live). -/
def SigDomain (s : ECSState) : Prop :=
  ∀ x : Entity, (mapLookup s.entitySignatures x).isSome = true ↔ x ∈ s.usedEntities

/-- The operations after which claim C1 requires the match rule to hold. -/
def IsMutation : Op → Bool
  | .destroyEntity _ => true
  | .addComponent _ _ _ => true
  | .removeComponent _ _ => true
  | _ => false

/-- Histories whose length keeps the allocator within the 32-bit ID space
(no batch arithmetic can truncate and the counter cannot wrap). -/
def Bounded (ops : List Op) : Prop :=
  ops.length + 100 < 2 ^ 32

/-- Claim C1 as stated: after any completed AddComponent, RemoveComponent or
DestroyEntity call, every (live) entity is in a registered system's matched
set exactly when its signature contains the system's required signature. -/
def C1Statement : Prop :=
  ∀ (ops : List Op) (op : Op), IsMutation op = true →
    ∀ e ∈ (run (ops ++ [op])).usedEntities, MatchedFor (run (ops ++ [op])) e

/-- Claim C3 as stated, over reachable states: (a) no two simultaneously-live
entities hold the same ID — the used set never has duplicates and a freshly
issued ID is never already live; (b) every destroyed ID is immediately
recycled into the available pool; (c) an ID is only (re)issued once it is
absent from the signature map, every component store, and every system's
matched set. -/
def C3Statement : Prop :=
  (∀ ops : List Op, (run ops).usedEntities.Nodup ∧
     ∀ e : Entity, (NewEntity (run ops)).2 = .ok e → e ∉ (run ops).usedEntities) ∧
  (∀ (ops : List Op) (e : Entity), e ∈ (run ops).usedEntities →
     e ∈ (DestroyEntity (run ops) e).1.availableEntities) ∧
  (∀ (ops : List Op) (e : Entity), (NewEntity (run ops)).2 = .ok e →
     mapLookup (run ops).entitySignatures e = none ∧
     (∀ p ∈ (run ops).componentArrays, (p.2 : ComponentArray Val).HasComponent e = false) ∧
     (∀ p ∈ (run ops).systems, e ∉ (p.2 : List Entity)))

/-- Claim C6 as stated, over reachable states: a redundant add (type already
held) or redundant remove (type not held) on a live entity is reported as a
warning and leaves the store registry, the entity signatures and all system
matched sets unchanged. -/
def C6Statement : Prop :=
  ∀ (ops : List Op) (c : CName) (e : Entity) (v : Val) (arr : ComponentArray Val),
    EntityExists (run ops) e = true →
    mapLookup (run ops).componentArrays c = some arr →
    ((arr.HasComponent e = true →
        (AddComponent (run ops) c e v).2.1 = some Report.warnAddComponentAlreadyHas ∧
        (AddComponent (run ops) c e v).1.componentArrays = (run ops).componentArrays ∧
        (AddComponent (run ops) c e v).1.entitySignatures = (run ops).entitySignatures ∧
        (AddComponent (run ops) c e v).1.systems = (run ops).systems) ∧
     (arr.HasComponent e = false →
        (RemoveComponent (run ops) c e).2 = some Report.warnRemoveComponentDoesNotHave ∧
        (RemoveComponent (run ops) c e).1.componentArrays = (run ops).componentArrays ∧
        (RemoveComponent (run ops) c e).1.entitySignatures = (run ops).entitySignatures ∧
        (RemoveComponent (run ops) c e).1.systems = (run ops).systems))

/-- Claim C9 as stated, over reachable states: registering an
already-registered system type reports, is a no-op on the registry, and
returns the existing registration. -/
def C9Statement : Prop :=
  ∀ (ops : List Op) (t : SName) (ents : List Entity),
    mapLookup (run ops).systems t = some ents →
    (RegisterSystem (run ops) t).1 = run ops ∧
    (RegisterSystem (run ops) t).2.1 = some Report.warnRegisterSystemDuplicate ∧
    (RegisterSystem (run ops) t).2.2 = some ents

/-- Trace used against C1: entity 1 gains component 0 before system 5's
signature is set, so it is never re-evaluated; the final call mutates the
unrelated entity 2. -/
def opsC1 : List Op :=
  [.registerComponent 0, .newEntity, .addComponent 0 1 7, .registerSystem 5,
   .setSystemSignature 5 {0}, .newEntity]

/-- Trace used against C3: system 0 is registered but its signature is never
set, so the destroyed entity 1 is inserted into its matched set by the destroy
itself, and 1 is then reissued while still a member. -/
def opsC3 : List Op :=
  [.registerSystem 0, .newEntity, .destroyEntity 1]

/-- Trace used for C6: entity 1 already holds component 0, and system 5
(requiring component 0) was registered afterwards, so its matched set is stale
with respect to entity 1. -/
def opsC6 : List Op :=
  [.registerComponent 0, .newEntity, .addComponent 0 1 7, .registerSystem 5,
   .setSystemSignature 5 {0}]

/-- The state reached by `opsC6`. -/
def sC6 : ECSState := run opsC6

/-- The state reached by `opsC6` after one more redundant add: its matched
sets agree with the match rule for entity 1. -/
def sC6r : ECSState := run (opsC6 ++ [.addComponent 0 1 7])

/-- A state with one registered system, for C9. -/
def sC9 : ECSState := run [.registerSystem 0]

/-- A state whose entity counter sits at `UINT32_MAX`, i.e. the full ID space
is consumed, with one recycled ID available. -/
def sFull : ECSState :=
  { initState with availableEntities := [5], entityCount := UINT32MAX }

/-- The store of claim C2's scenario: component values 10, 20, 30 added for
entities 1, 2, 3 in that order. -/
def st3 : ComponentArray Val :=
  (((ComponentArray.AddComponent ⟨[], [], []⟩ 1 10).1.AddComponent 2 20).1.AddComponent 3 30).1

section MapLemmas

variable {K V : Type} [DecidableEq K]

theorem mapLookup_some_mem {m : List (K × V)} {k : K} {v : V}
    (h : mapLookup m k = some v) : (k, v) ∈ m := by
  induction m with
  | nil => simp [mapLookup] at h
  | cons p t ih =>
    obtain ⟨a, b⟩ := p
    by_cases hak : a = k
    · subst hak
      simp [mapLookup] at h
      simp [h]
    · simp [mapLookup, hak] at h
      exact List.mem_cons_of_mem _ (ih h)

theorem mapLookup_eq_none {m : List (K × V)} {k : K} (h : k ∉ mapKeys m) :
    mapLookup m k = none := by
  induction m with
  | nil => rfl
  | cons p t ih =>
    obtain ⟨a, b⟩ := p
    simp only [mapKeys, List.map_cons, List.mem_cons, not_or] at h
    simp [mapLookup, Ne.symm h.1, ih (by simpa [mapKeys] using h.2)]

theorem mapLookup_isSome_iff {m : List (K × V)} {k : K} :
    (mapLookup m k).isSome = true ↔ k ∈ mapKeys m := by
  induction m with
  | nil => simp [mapLookup, mapKeys]
  | cons p t ih =>
    obtain ⟨a, b⟩ := p
    by_cases hak : a = k
    · simp [mapLookup, mapKeys, hak]
    · simp only [mapLookup, if_neg hak, mapKeys, List.map_cons, List.mem_cons, ih]
      simp [mapKeys, Ne.symm hak]

theorem mapLookup_mapInsert_self (m : List (K × V)) (k : K) (v : V) :
    mapLookup (mapInsert m k v) k = some v := by
  induction m with
  | nil => simp [mapInsert, mapLookup]
  | cons p t ih =>
    obtain ⟨a, b⟩ := p
    by_cases hak : a = k <;> simp [mapInsert, mapLookup, hak, ih]

theorem mapLookup_mapInsert_ne (m : List (K × V)) {k k' : K} (v : V) (h : k' ≠ k) :
    mapLookup (mapInsert m k v) k' = mapLookup m k' := by
  induction m with
  | nil => simp [mapInsert, mapLookup, Ne.symm h]
  | cons p t ih =>
    obtain ⟨a, b⟩ := p
    by_cases hak : a = k
    · subst hak
      simp [mapInsert, mapLookup, Ne.symm h]
    · simp [mapInsert, mapLookup, hak, ih]

theorem mapLookup_mapErase_ne (m : List (K × V)) {k k' : K} (h : k' ≠ k) :
    mapLookup (mapErase m k) k' = mapLookup m k' := by
  induction m with
  | nil => rfl
  | cons p t ih =>
    obtain ⟨a, b⟩ := p
    by_cases hak : a = k
    · subst hak
      simp [mapErase, mapLookup, Ne.symm h]
    · simp [mapErase, mapLookup, hak, ih]

theorem mapLookup_mapErase_self {m : List (K × V)} (k : K) (hm : NodupKeys m) :
    mapLookup (mapErase m k) k = none := by
  induction m with
  | nil => rfl
  | cons p t ih =>
    obtain ⟨a, b⟩ := p
    simp [NodupKeys, mapKeys] at hm
    by_cases hak : a = k
    · subst hak
      simp only [mapErase, if_pos rfl]
      exact mapLookup_eq_none (by simpa [mapKeys] using hm.1)
    · simp [mapErase, mapLookup, hak, ih hm.2]

theorem mapKeys_mapInsert (m : List (K × V)) (k : K) (v : V) :
    mapKeys (mapInsert m k v) =
      if k ∈ mapKeys m then mapKeys m else mapKeys m ++ [k] := by
  induction m with
  | nil => simp [mapInsert, mapKeys]
  | cons p t ih =>
    obtain ⟨a, b⟩ := p
    by_cases hak : a = k
    · subst hak
      simp [mapInsert, mapKeys]
    · have h1 : mapKeys (mapInsert ((a, b) :: t) k v) = a :: mapKeys (mapInsert t k v) := by
        simp [mapInsert, hak, mapKeys]
      rw [h1, ih]
      by_cases hmem : k ∈ List.map Prod.fst t <;>
        simp [mapKeys, hmem, Ne.symm hak]

theorem nodupKeys_mapInsert (m : List (K × V)) (k : K) (v : V) (h : NodupKeys m) :
    NodupKeys (mapInsert m k v) := by
  unfold NodupKeys at *
  rw [mapKeys_mapInsert]
  by_cases hmem : k ∈ mapKeys m
  · simpa [hmem] using h
  · simp [hmem, List.nodup_append, h]

theorem mapKeys_mapErase_sublist (m : List (K × V)) (k : K) :
    (mapKeys (mapErase m k)).Sublist (mapKeys m) := by
  induction m with
  | nil => simp [mapErase, mapKeys]
  | cons p t ih =>
    obtain ⟨a, b⟩ := p
    by_cases hak : a = k
    · simp only [mapErase, if_pos hak, mapKeys, List.map_cons]
      exact List.sublist_cons_self _ _
    · simpa [mapErase, hak, mapKeys] using ih

theorem nodupKeys_mapErase (m : List (K × V)) (k : K) (h : NodupKeys m) :
    NodupKeys (mapErase m k) :=
  (mapKeys_mapErase_sublist m k).nodup h

theorem mapInsert_lookup_self {m : List (K × V)} {k : K} {v : V}
    (h : mapLookup m k = some v) : mapInsert m k v = m := by
  induction m with
  | nil => simp [mapLookup] at h
  | cons p t ih =>
    obtain ⟨a, b⟩ := p
    by_cases hak : a = k
    · subst hak
      simp [mapLookup] at h
      simp [mapInsert, h]
    · simp [mapLookup, hak] at h
      simp [mapInsert, hak, ih h]

theorem lookupD_mapInsert_self (m : List (K × V)) (k : K) (v d : V) :
    lookupD (mapInsert m k v) k d = v := by
  simp [lookupD, mapLookup_mapInsert_self]

theorem lookupD_mapInsert_ne (m : List (K × V)) {k k' : K} (v d : V) (h : k' ≠ k) :
    lookupD (mapInsert m k v) k' d = lookupD m k' d := by
  simp [lookupD, mapLookup_mapInsert_ne m v h]

theorem lookupD_mapInsert_selfD (m : List (K × V)) (k : K) (d : V) (x : K) :
    lookupD (mapInsert m k (lookupD m k d)) x d = lookupD m x d := by
  by_cases hxk : x = k
  · subst hxk
    simp [lookupD_mapInsert_self]
  · simp [lookupD_mapInsert_ne m _ _ hxk]

theorem mapLookup_of_mem_nodup {m : List (K × V)} {k : K} {v : V}
    (hm : NodupKeys m) (h : (k, v) ∈ m) : mapLookup m k = some v := by
  induction m with
  | nil => simp at h
  | cons p t ih =>
    obtain ⟨a, b⟩ := p
    simp only [NodupKeys, mapKeys, List.map_cons, List.nodup_cons] at hm
    rcases List.mem_cons.mp h with hh | hh
    · obtain ⟨rfl, rfl⟩ := Prod.mk.injEq .. ▸ hh
      simp_all [mapLookup]
    · have hka : ¬a = k := by
        rintro rfl
        exact hm.1 (by simpa [mapKeys] using List.mem_map_of_mem Prod.fst hh)
      simp [mapLookup, hka, ih (by simpa [NodupKeys, mapKeys] using hm.2) hh]

theorem mapInsert_of_not_mem {m : List (K × V)} {k : K} (v : V) (h : k ∉ mapKeys m) :
    mapInsert m k v = m ++ [(k, v)] := by
  induction m with
  | nil => rfl
  | cons p t ih =>
    obtain ⟨a, b⟩ := p
    simp only [mapKeys, List.map_cons, List.mem_cons, not_or] at h
    simp [mapInsert, Ne.symm h.1, ih (by simpa [mapKeys] using h.2)]

theorem mem_of_mem_mapInsert {m : List (K × V)} {k : K} {v : V} {p : K × V}
    (h : p ∈ mapInsert m k v) : p = (k, v) ∨ p ∈ m := by
  induction m with
  | nil => simpa [mapInsert] using h
  | cons q t ih =>
    obtain ⟨a, b⟩ := q
    by_cases hak : a = k
    · subst hak
      rcases List.mem_cons.mp (by simpa [mapInsert] using h) with hh | hh
      · exact Or.inl hh
      · exact Or.inr (List.mem_cons_of_mem _ hh)
    · rcases List.mem_cons.mp (by simpa [mapInsert, hak] using h) with hh | hh
      · exact Or.inr (by simp [hh])
      · rcases ih hh with hh2 | hh2
        · exact Or.inl hh2
        · exact Or.inr (List.mem_cons_of_mem _ hh2)

theorem mem_of_mem_mapErase {m : List (K × V)} {k : K} {p : K × V}
    (h : p ∈ mapErase m k) : p ∈ m := by
  induction m with
  | nil => simp [mapErase] at h
  | cons q t ih =>
    obtain ⟨a, b⟩ := q
    by_cases hak : a = k
    · exact List.mem_cons_of_mem _ (by simpa [mapErase, hak] using h)
    · rcases List.mem_cons.mp (by simpa [mapErase, hak] using h) with hh | hh
      · simp [hh]
      · exact List.mem_cons_of_mem _ (ih hh)

theorem mapLookup_append_of_some {m l : List (K × V)} {x : K} {v : V}
    (h : mapLookup m x = some v) : mapLookup (m ++ l) x = some v := by
  induction m with
  | nil => simp [mapLookup] at h
  | cons p t ih =>
    obtain ⟨a, b⟩ := p
    by_cases hax : a = x
    · simpa [mapLookup, hax] using by simpa [mapLookup, hax] using h
    · simp only [mapLookup, if_neg hax] at h ⊢
      exact ih h

theorem mapLookup_append_of_none {m l : List (K × V)} {x : K}
    (h : mapLookup m x = none) : mapLookup (m ++ l) x = mapLookup l x := by
  induction m with
  | nil => simp
  | cons p t ih =>
    obtain ⟨a, b⟩ := p
    by_cases hax : a = x
    · simp [mapLookup, hax] at h
    · simp only [mapLookup, if_neg hax] at h ⊢
      exact ih h

theorem nodupKeys_append_single {m : List (K × V)} {k : K} (w : V)
    (hm : NodupKeys m) (hk : k ∉ mapKeys m) : NodupKeys (m ++ [(k, w)]) := by
  rw [NodupKeys, mapKeys]
  simp only [List.map_append]
  exact List.nodup_append.mpr ⟨hm, by simp,
    by simpa [mapKeys, List.disjoint_singleton] using hk⟩

end MapLemmas

section SetLemmas

variable {A : Type} [DecidableEq A]

theorem mem_setInsert {l : List A} {x y : A} :
    x ∈ setInsert l y ↔ x = y ∨ x ∈ l := by
  by_cases h : y ∈ l
  · simp only [setInsert, if_pos h]
    constructor
    · exact Or.inr
    · rintro (rfl | hx) <;> [exact h; exact hx]
  · simp [setInsert, if_neg h, or_comm]

theorem mem_setInsert_self (l : List A) (y : A) : y ∈ setInsert l y :=
  mem_setInsert.mpr (Or.inl rfl)

theorem setInsert_of_mem {l : List A} {y : A} (h : y ∈ l) : setInsert l y = l := by
  simp [setInsert, h]

theorem nodup_setInsert (l : List A) (y : A) (h : l.Nodup) : (setInsert l y).Nodup := by
  by_cases hm : y ∈ l
  · simpa [setInsert, hm] using h
  · simp [setInsert, hm, List.nodup_append, h]

theorem not_mem_erase_self {l : List A} {y : A} (h : l.Nodup) : y ∉ l.erase y := by
  rw [h.erase_eq_filter]
  simp

theorem setInsert_length_le (l : List A) (y : A) :
    l.length ≤ (setInsert l y).length := by
  by_cases hm : y ∈ l <;> simp [setInsert, hm]

end SetLemmas

section ListFacts

variable {T : Type}

theorem getD_dropLast {l : List T} {i : Nat} (hi : i + 1 < l.length) (d : T) :
    l.dropLast.getD i d = l.getD i d := by
  have h2 : i < l.dropLast.length := by
    simp only [List.length_dropLast]
    omega
  rw [List.getD_eq_getElem?_getD, List.getD_eq_getElem?_getD,
    List.getElem?_eq_getElem h2, List.getElem?_eq_getElem (by omega : i < l.length)]
  simp [List.getElem_dropLast]

theorem getD_set_self {l : List T} {i : Nat} (hi : i < l.length) (v d : T) :
    (l.set i v).getD i d = v := by
  rw [List.getD_eq_getElem?_getD, List.getElem?_set_self (by omega)]
  simp [List.getElem?_eq_getElem hi]

end ListFacts

namespace ComponentArray

variable {T : Type}

theorem wf_empty : (⟨[], [], []⟩ : ComponentArray T).WF := by
  refine ⟨?_, ?_, ?_, ?_, ?_, ?_⟩ <;> simp [NodupKeys, mapKeys]

theorem has_true_iff {a : ComponentArray T} {e : Entity} :
    a.HasComponent e = true ↔ ∃ i, mapLookup a.entityToIndex e = some i := by
  unfold HasComponent
  cases mapLookup a.entityToIndex e <;> simp

theorem has_false_iff {a : ComponentArray T} {e : Entity} :
    a.HasComponent e = false ↔ mapLookup a.entityToIndex e = none := by
  unfold HasComponent
  cases mapLookup a.entityToIndex e <;> simp

theorem WF.ite_of_eti {a : ComponentArray T} (h : a.WF) {e : Entity} {i : Nat}
    (he : mapLookup a.entityToIndex e = some i) :
    mapLookup a.indexToEntity i = some e :=
  h.1 (e, i) (mapLookup_some_mem he)

theorem WF.eti_of_ite {a : ComponentArray T} (h : a.WF) {i : Nat} {e : Entity}
    (hq : mapLookup a.indexToEntity i = some e) :
    mapLookup a.entityToIndex e = some i :=
  h.2.1 (i, e) (mapLookup_some_mem hq)

theorem WF.lt_of_ite {a : ComponentArray T} (h : a.WF) {i : Nat} {e : Entity}
    (hq : mapLookup a.indexToEntity i = some e) :
    i < a.componentArray.length :=
  h.2.2.1 (i, e) (mapLookup_some_mem hq)

theorem WF.lt_of_eti {a : ComponentArray T} (h : a.WF) {e : Entity} {i : Nat}
    (he : mapLookup a.entityToIndex e = some i) :
    i < a.componentArray.length :=
  h.lt_of_ite (h.ite_of_eti he)

theorem WF.ite_isSome {a : ComponentArray T} (h : a.WF) {i : Nat}
    (hi : i < a.componentArray.length) :
    (mapLookup a.indexToEntity i).isSome = true :=
  h.2.2.2.1 i hi

theorem WF.nodup_eti {a : ComponentArray T} (h : a.WF) : NodupKeys a.entityToIndex :=
  h.2.2.2.2.1

theorem WF.nodup_ite {a : ComponentArray T} (h : a.WF) : NodupKeys a.indexToEntity :=
  h.2.2.2.2.2

theorem addComponent_fst_of_has {a : ComponentArray T} {e : Entity} (v : T)
    (h : a.HasComponent e = true) : a.AddComponent e v = (a, some .warnAddComponentAlreadyHas) := by
  simp [AddComponent, h]

theorem addComponent_fst_of_not_has {a : ComponentArray T} {e : Entity} (v : T)
    (h : a.HasComponent e = false) :
    a.AddComponent e v =
      ({ componentArray := a.componentArray ++ [v],
         entityToIndex := mapInsert a.entityToIndex e a.componentArray.length,
         indexToEntity := mapInsert a.indexToEntity a.componentArray.length e }, none) := by
  simp [AddComponent, h]

theorem addComponent_has_self (a : ComponentArray T) (e : Entity) (v : T) :
    (a.AddComponent e v).1.HasComponent e = true := by
  by_cases h : a.HasComponent e = true
  · rw [addComponent_fst_of_has v h]
    exact h
  · rw [addComponent_fst_of_not_has v (by simpa using h)]
    simp [HasComponent, mapLookup_mapInsert_self]

theorem addComponent_has_other {a : ComponentArray T} {e x : Entity} (v : T) (hx : x ≠ e) :
    (a.AddComponent e v).1.HasComponent x = a.HasComponent x := by
  by_cases h : a.HasComponent e = true
  · rw [addComponent_fst_of_has v h]
  · rw [addComponent_fst_of_not_has v (by simpa using h)]
    simp [HasComponent, mapLookup_mapInsert_ne _ _ hx]

theorem addComponent_WF {a : ComponentArray T} {e : Entity} {v : T} (h : a.WF) :
    (a.AddComponent e v).1.WF := by
  by_cases hhas : a.HasComponent e = true
  · rw [addComponent_fst_of_has v hhas]
    exact h
  · have hnone : mapLookup a.entityToIndex e = none := has_false_iff.mp (by simpa using hhas)
    have heK : e ∉ mapKeys a.entityToIndex := by
      rw [← mapLookup_isSome_iff]
      simp [hnone]
    have hlenK : a.componentArray.length ∉ mapKeys a.indexToEntity := by
      rw [← mapLookup_isSome_iff]
      intro hs
      obtain ⟨x, hx⟩ := Option.isSome_iff_exists.mp hs
      exact absurd (h.lt_of_ite hx) (by omega)
    have hiteN : mapLookup a.indexToEntity a.componentArray.length = none :=
      mapLookup_eq_none hlenK
    rw [addComponent_fst_of_not_has v (by simpa using hhas)]
    rw [WF]
    simp only [mapInsert_of_not_mem _ heK, mapInsert_of_not_mem _ hlenK]
    refine ⟨?_, ?_, ?_, ?_, ?_, ?_⟩
    · intro p hp
      rcases List.mem_append.mp hp with hp | hp
      · exact mapLookup_append_of_some (h.1 p hp)
      · simp only [List.mem_singleton] at hp
        subst hp
        rw [mapLookup_append_of_none hiteN]
        simp [mapLookup]
    · intro q hq
      rcases List.mem_append.mp hq with hq | hq
      · exact mapLookup_append_of_some (h.2.1 q hq)
      · simp only [List.mem_singleton] at hq
        subst hq
        rw [mapLookup_append_of_none hnone]
        simp [mapLookup]
    · intro q hq
      rcases List.mem_append.mp hq with hq | hq
      · have := h.2.2.1 q hq
        simp only [List.length_append, List.length_singleton]
        omega
      · simp only [List.mem_singleton] at hq
        subst hq
        simp
    · intro i hi
      simp only [List.length_append, List.length_singleton] at hi
      by_cases hie : i = a.componentArray.length
      · subst hie
        rw [mapLookup_append_of_none hiteN]
        simp [mapLookup]
      · obtain ⟨x, hx⟩ := Option.isSome_iff_exists.mp (h.2.2.2.1 i (by omega))
        rw [mapLookup_append_of_some hx]
        rfl
    · exact nodupKeys_append_single _ h.nodup_eti heK
    · exact nodupKeys_append_single _ h.nodup_ite hlenK

theorem removeComponent_fst_of_not_has [Inhabited T] {a : ComponentArray T} {e : Entity}
    (h : a.HasComponent e = false) :
    a.RemoveComponent e = (a, some .warnRemoveComponentDoesNotHave) := by
  simp [RemoveComponent, h]

theorem removeComponent_def [Inhabited T] {a : ComponentArray T} {e lastE : Entity} {di : Nat}
    (hhas : a.HasComponent e = true)
    (hdi : mapLookup a.entityToIndex e = some di)
    (hlast : mapLookup a.indexToEntity (a.componentArray.length - 1) = some lastE) :
    a.RemoveComponent e =
      ({ componentArray :=
           (a.componentArray.set di
             (a.componentArray.getD (a.componentArray.length - 1) default)).dropLast,
         entityToIndex := mapErase (mapInsert a.entityToIndex lastE di) e,
         indexToEntity := mapErase (mapInsert a.indexToEntity di lastE)
           (a.componentArray.length - 1) }, none) := by
  simp [RemoveComponent, hhas, hdi, hlast]

theorem removeComponent_eti_lookup [Inhabited T] {a : ComponentArray T} {e lastE : Entity}
    {di : Nat} (h : a.WF) (hhas : a.HasComponent e = true)
    (hdi : mapLookup a.entityToIndex e = some di)
    (hlast : mapLookup a.indexToEntity (a.componentArray.length - 1) = some lastE)
    (x : Entity) :
    mapLookup (a.RemoveComponent e).1.entityToIndex x =
      if x = e then none
      else if x = lastE then some di
      else mapLookup a.entityToIndex x := by
  rw [removeComponent_def hhas hdi hlast]
  by_cases hxe : x = e
  · subst hxe
    rw [if_pos rfl]
    exact mapLookup_mapErase_self _ (nodupKeys_mapInsert _ _ _ h.nodup_eti)
  · rw [if_neg hxe]
    show mapLookup (mapErase (mapInsert a.entityToIndex lastE di) e) x = _
    rw [mapLookup_mapErase_ne _ hxe]
    by_cases hxl : x = lastE
    · subst hxl
      rw [if_pos rfl, mapLookup_mapInsert_self]
    · rw [if_neg hxl, mapLookup_mapInsert_ne _ _ hxl]

theorem removeComponent_ite_lookup [Inhabited T] {a : ComponentArray T} {e lastE : Entity}
    {di : Nat} (h : a.WF) (hhas : a.HasComponent e = true)
    (hdi : mapLookup a.entityToIndex e = some di)
    (hlast : mapLookup a.indexToEntity (a.componentArray.length - 1) = some lastE)
    (i : Nat) :
    mapLookup (a.RemoveComponent e).1.indexToEntity i =
      if i = a.componentArray.length - 1 then none
      else if i = di then some lastE
      else mapLookup a.indexToEntity i := by
  rw [removeComponent_def hhas hdi hlast]
  by_cases hi1 : i = a.componentArray.length - 1
  · subst hi1
    rw [if_pos rfl]
    exact mapLookup_mapErase_self _ (nodupKeys_mapInsert _ _ _ h.nodup_ite)
  · rw [if_neg hi1]
    show mapLookup (mapErase (mapInsert a.indexToEntity di lastE) _) i = _
    rw [mapLookup_mapErase_ne _ hi1]
    by_cases hid : i = di
    · subst hid
      rw [if_pos rfl, mapLookup_mapInsert_self]
    · rw [if_neg hid, mapLookup_mapInsert_ne _ _ hid]

theorem removeComponent_has_self [Inhabited T] {a : ComponentArray T} {e : Entity}
    (h : a.WF) : (a.RemoveComponent e).1.HasComponent e = false := by
  by_cases hhas : a.HasComponent e = true
  · obtain ⟨di, hdi⟩ := has_true_iff.mp hhas
    have hdilt : di < a.componentArray.length := h.lt_of_eti hdi
    obtain ⟨lastE, hlast⟩ := Option.isSome_iff_exists.mp
      (h.ite_isSome (show a.componentArray.length - 1 < a.componentArray.length by omega))
    rw [has_false_iff, removeComponent_eti_lookup h hhas hdi hlast e, if_pos rfl]
  · rw [removeComponent_fst_of_not_has (by simpa using hhas)]
    simpa using hhas

theorem removeComponent_has_other [Inhabited T] {a : ComponentArray T} {e x : Entity}
    (h : a.WF) (hx : x ≠ e) :
    (a.RemoveComponent e).1.HasComponent x = a.HasComponent x := by
  by_cases hhas : a.HasComponent e = true
  · obtain ⟨di, hdi⟩ := has_true_iff.mp hhas
    have hdilt : di < a.componentArray.length := h.lt_of_eti hdi
    obtain ⟨lastE, hlast⟩ := Option.isSome_iff_exists.mp
      (h.ite_isSome (show a.componentArray.length - 1 < a.componentArray.length by omega))
    unfold HasComponent
    rw [removeComponent_eti_lookup h hhas hdi hlast x, if_neg hx]
    by_cases hxl : x = lastE
    · subst hxl
      rw [if_pos rfl, h.eti_of_ite hlast]
      rfl
    · rw [if_neg hxl]
  · rw [removeComponent_fst_of_not_has (by simpa using hhas)]

theorem removeComponent_length [Inhabited T] {a : ComponentArray T} {e : Entity}
    (hhas : a.HasComponent e = true) :
    (a.RemoveComponent e).1.componentArray.length = a.componentArray.length - 1 := by
  simp [RemoveComponent, hhas, List.length_dropLast, List.length_set]

theorem removeComponent_WF [Inhabited T] {a : ComponentArray T} {e : Entity} (h : a.WF) :
    (a.RemoveComponent e).1.WF := by
  by_cases hhas : a.HasComponent e = true
  case neg =>
    rw [removeComponent_fst_of_not_has (by simpa using hhas)]
    exact h
  case pos =>
  obtain ⟨di, hdi⟩ := has_true_iff.mp hhas
  have hdilt : di < a.componentArray.length := h.lt_of_eti hdi
  have hlen1 : a.componentArray.length - 1 < a.componentArray.length := by omega
  obtain ⟨lastE, hlast⟩ := Option.isSome_iff_exists.mp (h.ite_isSome hlen1)
  have hetiL : mapLookup a.entityToIndex lastE = some (a.componentArray.length - 1) :=
    h.eti_of_ite hlast
  have hiteD : mapLookup a.indexToEntity di = some e := h.ite_of_eti hdi
  have hlenA : (a.RemoveComponent e).1.componentArray.length =
      a.componentArray.length - 1 := removeComponent_length hhas
  have hiff : di = a.componentArray.length - 1 ↔ lastE = e := by
    constructor
    · intro hd
      rw [hd] at hiteD
      exact (Option.some.inj (hlast.symm.trans hiteD))
    · intro hl
      rw [hl] at hetiL
      exact Option.some.inj (hdi.symm.trans hetiL)
  have hE := removeComponent_eti_lookup h hhas hdi hlast
  have hI := removeComponent_ite_lookup h hhas hdi hlast
  have hnodE : NodupKeys (a.RemoveComponent e).1.entityToIndex := by
    rw [removeComponent_def hhas hdi hlast]
    exact nodupKeys_mapErase _ _ (nodupKeys_mapInsert _ _ _ h.nodup_eti)
  have hnodI : NodupKeys (a.RemoveComponent e).1.indexToEntity := by
    rw [removeComponent_def hhas hdi hlast]
    exact nodupKeys_mapErase _ _ (nodupKeys_mapInsert _ _ _ h.nodup_ite)
  refine ⟨?_, ?_, ?_, ?_, hnodE, hnodI⟩
  · intro p hp
    have hl : mapLookup (a.RemoveComponent e).1.entityToIndex p.1 = some p.2 :=
      mapLookup_of_mem_nodup hnodE hp
    rw [hE p.1] at hl
    split_ifs at hl with h1 h2
    · obtain rfl : p.2 = di := (Option.some.inj hl).symm
      have hdne : ¬p.2 = a.componentArray.length - 1 := fun hd => h1 (h2.trans (hiff.mp hd))
      simp [hI p.2, hdne, h2]
    · have hw : mapLookup a.indexToEntity p.2 = some p.1 := h.ite_of_eti hl
      have hne1 : ¬p.2 = a.componentArray.length - 1 := by
        intro hd
        rw [hd] at hw
        exact h2 (Option.some.inj (hlast.symm.trans hw)).symm
      have hne2 : ¬p.2 = di := by
        intro hd
        rw [hd] at hw
        exact h1 (Option.some.inj (hiteD.symm.trans hw)).symm
      rw [hI p.2, if_neg hne1, if_neg hne2]
      exact hw
  · intro q hq
    have hl : mapLookup (a.RemoveComponent e).1.indexToEntity q.1 = some q.2 :=
      mapLookup_of_mem_nodup hnodI hq
    rw [hI q.1] at hl
    split_ifs at hl with h1 h2
    · obtain rfl : q.2 = lastE := (Option.some.inj hl).symm
      have hlne : ¬q.2 = e := fun hl2 => h1 (h2.trans (hiff.mpr hl2))
      simp [hE q.2, hlne, h2]
    · have hw : mapLookup a.entityToIndex q.2 = some q.1 := h.eti_of_ite hl
      have hne : ¬q.2 = e := by
        intro hd
        rw [hd] at hw
        exact h2 (Option.some.inj (hdi.symm.trans hw)).symm
      have hne2 : ¬q.2 = lastE := by
        intro hd
        rw [hd] at hw
        exact h1 (Option.some.inj (hetiL.symm.trans hw)).symm
      rw [hE q.2, if_neg hne, if_neg hne2]
      exact hw
  · intro q hq
    have hl : mapLookup (a.RemoveComponent e).1.indexToEntity q.1 = some q.2 :=
      mapLookup_of_mem_nodup hnodI hq
    rw [hI q.1] at hl
    rw [hlenA]
    split_ifs at hl with h1 h2
    · have hdne : ¬di = a.componentArray.length - 1 := fun hd => h1 (h2.trans hd)
      rw [h2]
      omega
    · have := h.lt_of_ite hl
      omega
  · intro i hi
    rw [hlenA] at hi
    have hne1 : ¬i = a.componentArray.length - 1 := by omega
    rw [hI i, if_neg hne1]
    by_cases hid : i = di
    · simp [hid]
    · rw [if_neg hid]
      exact h.ite_isSome (by omega)

theorem getComponent_eq [Inhabited T] {a : ComponentArray T} {e : Entity} {i : Nat}
    (hdi : mapLookup a.entityToIndex e = some i) :
    a.GetComponent e = .ok (a.componentArray.getD i default) := by
  simp [GetComponent, HasComponent, hdi]

theorem removeComponent_get_last [Inhabited T] {a : ComponentArray T} {e lastE : Entity}
    {di : Nat} (h : a.WF)
    (hdi : mapLookup a.entityToIndex e = some di)
    (hlast : mapLookup a.indexToEntity (a.componentArray.length - 1) = some lastE)
    (hlt : di + 1 < a.componentArray.length) :
    (a.RemoveComponent e).1.GetComponent lastE =
      .ok (a.componentArray.getD (a.componentArray.length - 1) default) := by
  have hhas : a.HasComponent e = true := by simp [HasComponent, hdi]
  have hlne : lastE ≠ e := by
    intro hl
    have hll := h.eti_of_ite hlast
    rw [hl] at hll
    have : di = a.componentArray.length - 1 := Option.some.inj (hdi.symm.trans hll)
    omega
  rw [removeComponent_def hhas hdi hlast]
  have hget : mapLookup (mapErase (mapInsert a.entityToIndex lastE di) e) lastE =
      some di := by
    rw [mapLookup_mapErase_ne _ hlne, mapLookup_mapInsert_self]
  simp only [GetComponent, HasComponent, hget, Option.isSome_some, Option.getD_some]
  rw [if_neg (by simp)]
  rw [getD_dropLast (by simpa [List.length_set] using hlt) default,
    getD_set_self (h.lt_of_eti hdi) _ default]

end ComponentArray

/-- Two states with equal components are equal. -/
theorem ECSState.ext10 {s t : ECSState}
    (h1 : s.availableEntities = t.availableEntities)
    (h2 : s.usedEntities = t.usedEntities)
    (h3 : s.entitySignatures = t.entitySignatures)
    (h4 : s.entityCount = t.entityCount)
    (h5 : s.componentArrays = t.componentArrays)
    (h6 : s.componentTypeToID = t.componentTypeToID)
    (h7 : s.componentIDToType = t.componentIDToType)
    (h8 : s.componentCount = t.componentCount)
    (h9 : s.systems = t.systems)
    (h10 : s.systemSignatures = t.systemSignatures) : s = t := by
  cases s
  cases t
  simp_all

section OSCLemmas

theorem oscFold_snd (sig : Signature) (e : Entity) (l : List (SName × List Entity)) :
    ∀ (ss0 ss : List (SName × Signature)) (acc : List (SName × List Entity)),
      (∀ x, lookupD ss x ∅ = lookupD ss0 x ∅) →
      (l.foldl (_OSCStep sig e) (ss, acc)).2 =
        acc ++ l.map (fun p =>
          if sig ∩ lookupD ss0 p.1 ∅ = lookupD ss0 p.1 ∅ then (p.1, setInsert p.2 e)
          else (p.1, p.2.erase e)) := by
  induction l with
  | nil => intro ss0 ss acc h; simp
  | cons p t ih =>
    intro ss0 ss acc h
    rw [List.foldl_cons]
    have hnext : ∀ x,
        lookupD (mapInsert ss p.1 (lookupD ss p.1 ∅)) x ∅ = lookupD ss0 x ∅ :=
      fun x => (lookupD_mapInsert_selfD ss p.1 ∅ x).trans (h x)
    by_cases hc : sig ∩ lookupD ss0 p.1 ∅ = lookupD ss0 p.1 ∅
    · have hcs : sig ∩ lookupD ss p.1 ∅ = lookupD ss p.1 ∅ := by rw [h p.1]; exact hc
      rw [show _OSCStep sig e (ss, acc) p =
          (mapInsert ss p.1 (lookupD ss p.1 ∅), acc ++ [(p.1, setInsert p.2 e)]) by
        simp [_OSCStep, hcs]]
      rw [ih ss0 _ _ hnext]
      simp [Finset.inter_eq_right.mp hc]
    · have hcs : ¬sig ∩ lookupD ss p.1 ∅ = lookupD ss p.1 ∅ := by rw [h p.1]; exact hc
      rw [show _OSCStep sig e (ss, acc) p =
          (mapInsert ss p.1 (lookupD ss p.1 ∅), acc ++ [(p.1, p.2.erase e)]) by
        simp [_OSCStep, hcs]]
      rw [ih ss0 _ _ hnext]
      simp [show ¬lookupD ss0 p.1 ∅ ⊆ sig from
        fun hsub => hc (Finset.inter_eq_right.mpr hsub)]

theorem oscFold_fst_lookupD (sig : Signature) (e : Entity) (l : List (SName × List Entity)) :
    ∀ (ss0 ss : List (SName × Signature)) (acc : List (SName × List Entity)),
      (∀ x, lookupD ss x ∅ = lookupD ss0 x ∅) →
      ∀ x, lookupD (l.foldl (_OSCStep sig e) (ss, acc)).1 x ∅ = lookupD ss0 x ∅ := by
  induction l with
  | nil => intro ss0 ss acc h; exact h
  | cons p t ih =>
    intro ss0 ss acc h
    rw [List.foldl_cons]
    have hnext : ∀ x,
        lookupD (mapInsert ss p.1 (lookupD ss p.1 ∅)) x ∅ = lookupD ss0 x ∅ :=
      fun x => (lookupD_mapInsert_selfD ss p.1 ∅ x).trans (h x)
    by_cases hcs : sig ∩ lookupD ss p.1 ∅ = lookupD ss p.1 ∅ <;>
      [rw [show _OSCStep sig e (ss, acc) p =
          (mapInsert ss p.1 (lookupD ss p.1 ∅), acc ++ [(p.1, setInsert p.2 e)]) by
        simp [_OSCStep, hcs]];
       rw [show _OSCStep sig e (ss, acc) p =
          (mapInsert ss p.1 (lookupD ss p.1 ∅), acc ++ [(p.1, p.2.erase e)]) by
        simp [_OSCStep, hcs]]] <;>
      exact ih ss0 _ _ hnext

theorem oscFold_fst_nodup (sig : Signature) (e : Entity) (l : List (SName × List Entity)) :
    ∀ (ss : List (SName × Signature)) (acc : List (SName × List Entity)),
      NodupKeys ss → NodupKeys (l.foldl (_OSCStep sig e) (ss, acc)).1 := by
  induction l with
  | nil => intro ss acc h; exact h
  | cons p t ih =>
    intro ss acc h
    rw [List.foldl_cons]
    by_cases hcs : sig ∩ lookupD ss p.1 ∅ = lookupD ss p.1 ∅ <;>
      [rw [show _OSCStep sig e (ss, acc) p =
          (mapInsert ss p.1 (lookupD ss p.1 ∅), acc ++ [(p.1, setInsert p.2 e)]) by
        simp [_OSCStep, hcs]];
       rw [show _OSCStep sig e (ss, acc) p =
          (mapInsert ss p.1 (lookupD ss p.1 ∅), acc ++ [(p.1, p.2.erase e)]) by
        simp [_OSCStep, hcs]]] <;>
      exact ih _ _ (nodupKeys_mapInsert _ _ _ h)

theorem oscFold_fst_id (sig : Signature) (e : Entity) (l : List (SName × List Entity)) :
    ∀ (ss : List (SName × Signature)) (acc : List (SName × List Entity)),
      (∀ p ∈ l, (mapLookup ss p.1).isSome = true) →
      (l.foldl (_OSCStep sig e) (ss, acc)).1 = ss := by
  induction l with
  | nil => intro ss acc _; rfl
  | cons p t ih =>
    intro ss acc h
    rw [List.foldl_cons]
    obtain ⟨w, hw⟩ := Option.isSome_iff_exists.mp (h p (by simp))
    have hins : mapInsert ss p.1 (lookupD ss p.1 ∅) = ss := by
      rw [show lookupD ss p.1 ∅ = w by simp [lookupD, hw]]
      exact mapInsert_lookup_self hw
    by_cases hcs : sig ∩ lookupD ss p.1 ∅ = lookupD ss p.1 ∅ <;>
      [rw [show _OSCStep sig e (ss, acc) p =
          (mapInsert ss p.1 (lookupD ss p.1 ∅), acc ++ [(p.1, setInsert p.2 e)]) by
        simp [_OSCStep, hcs]];
       rw [show _OSCStep sig e (ss, acc) p =
          (mapInsert ss p.1 (lookupD ss p.1 ∅), acc ++ [(p.1, p.2.erase e)]) by
        simp [_OSCStep, hcs]]] <;>
      · rw [hins]
        exact ih ss _ (fun q hq => h q (by simp [hq]))

theorem OSC_systems (s : ECSState) (e : Entity) :
    (_OnEntitySignatureChanged s e).systems =
      s.systems.map (fun p =>
        if lookupD s.entitySignatures e ∅ ∩ lookupD s.systemSignatures p.1 ∅ =
            lookupD s.systemSignatures p.1 ∅
        then (p.1, setInsert p.2 e)
        else (p.1, p.2.erase e)) := by
  show (s.systems.foldl (_OSCStep (lookupD s.entitySignatures e ∅) e)
      (s.systemSignatures, [])).2 = _
  rw [oscFold_snd _ _ s.systems s.systemSignatures s.systemSignatures [] (fun _ => rfl)]
  simp

theorem OSC_sysSigs_lookupD (s : ECSState) (e : Entity) (x : SName) :
    lookupD (_OnEntitySignatureChanged s e).systemSignatures x ∅ =
      lookupD s.systemSignatures x ∅ := by
  show lookupD (s.systems.foldl (_OSCStep (lookupD s.entitySignatures e ∅) e)
      (s.systemSignatures, [])).1 x ∅ = _
  exact oscFold_fst_lookupD _ _ s.systems s.systemSignatures s.systemSignatures []
    (fun _ => rfl) x

theorem OSC_sysSigs_nodup (s : ECSState) (e : Entity) (h : NodupKeys s.systemSignatures) :
    NodupKeys (_OnEntitySignatureChanged s e).systemSignatures := by
  show NodupKeys (s.systems.foldl (_OSCStep (lookupD s.entitySignatures e ∅) e)
      (s.systemSignatures, [])).1
  exact oscFold_fst_nodup _ _ s.systems s.systemSignatures [] h

theorem OSC_entitySigs (s : ECSState) (e : Entity) :
    (_OnEntitySignatureChanged s e).entitySignatures =
      mapInsert s.entitySignatures e (lookupD s.entitySignatures e ∅) := rfl

theorem OSC_availableEntities (s : ECSState) (e : Entity) :
    (_OnEntitySignatureChanged s e).availableEntities = s.availableEntities := rfl

theorem OSC_usedEntities (s : ECSState) (e : Entity) :
    (_OnEntitySignatureChanged s e).usedEntities = s.usedEntities := rfl

theorem OSC_entityCount (s : ECSState) (e : Entity) :
    (_OnEntitySignatureChanged s e).entityCount = s.entityCount := rfl

theorem OSC_componentArrays (s : ECSState) (e : Entity) :
    (_OnEntitySignatureChanged s e).componentArrays = s.componentArrays := rfl

theorem OSC_componentTypeToID (s : ECSState) (e : Entity) :
    (_OnEntitySignatureChanged s e).componentTypeToID = s.componentTypeToID := rfl

theorem OSC_componentIDToType (s : ECSState) (e : Entity) :
    (_OnEntitySignatureChanged s e).componentIDToType = s.componentIDToType := rfl

theorem OSC_componentCount (s : ECSState) (e : Entity) :
    (_OnEntitySignatureChanged s e).componentCount = s.componentCount := rfl

theorem OSC_entitySigs_lookupD (s : ECSState) (e : Entity) (x : Entity) :
    lookupD (_OnEntitySignatureChanged s e).entitySignatures x ∅ =
      lookupD s.entitySignatures x ∅ := by
  rw [OSC_entitySigs]
  exact lookupD_mapInsert_selfD _ _ _ _

theorem OSC_entitySigs_nodup (s : ECSState) (e : Entity)
    (h : NodupKeys s.entitySignatures) :
    NodupKeys (_OnEntitySignatureChanged s e).entitySignatures := by
  rw [OSC_entitySigs]
  exact nodupKeys_mapInsert _ _ _ h

theorem matchedFor_OSC (s : ECSState) (e : Entity)
    (hnod : ∀ p ∈ s.systems, (p.2 : List Entity).Nodup) :
    MatchedFor (_OnEntitySignatureChanged s e) e := by
  intro p hp
  rw [OSC_systems] at hp
  obtain ⟨q, hq, rfl⟩ := List.mem_map.mp hp
  rw [OSC_sysSigs_lookupD, OSC_entitySigs_lookupD]
  by_cases hc : lookupD s.entitySignatures e ∅ ∩ lookupD s.systemSignatures q.1 ∅ =
      lookupD s.systemSignatures q.1 ∅
  · rw [if_pos hc]
    constructor
    · intro _
      rw [show lookupD s.systemSignatures (q.1, setInsert q.2 e).1 ∅ =
          lookupD s.systemSignatures q.1 ∅ from rfl] at *
      exact Finset.inter_eq_right.mp hc
    · intro _
      exact mem_setInsert_self _ _
  · rw [if_neg hc]
    constructor
    · intro hmem
      exact absurd hmem (not_mem_erase_self (hnod q hq))
    · intro hsub
      exact absurd (Finset.inter_eq_right.mpr hsub) hc

theorem OSC_eq_self (s : ECSState) (e : Entity)
    (hsig : (mapLookup s.entitySignatures e).isSome = true)
    (hsys : ∀ p ∈ s.systems, (mapLookup s.systemSignatures p.1).isSome = true)
    (hcons : MatchedFor s e) :
    _OnEntitySignatureChanged s e = s := by
  have hsigs_eq : (_OnEntitySignatureChanged s e).entitySignatures = s.entitySignatures := by
    rw [OSC_entitySigs]
    obtain ⟨w, hw⟩ := Option.isSome_iff_exists.mp hsig
    rw [show lookupD s.entitySignatures e ∅ = w by simp [lookupD, hw]]
    exact mapInsert_lookup_self hw
  have hsys_eq : (_OnEntitySignatureChanged s e).systems = s.systems := by
    rw [OSC_systems]
    have : ∀ q ∈ s.systems, (fun p =>
        if lookupD s.entitySignatures e ∅ ∩ lookupD s.systemSignatures p.1 ∅ =
            lookupD s.systemSignatures p.1 ∅
        then (p.1, setInsert p.2 e)
        else (p.1, p.2.erase e)) q = q := by
      intro q hq
      by_cases hc : lookupD s.entitySignatures e ∅ ∩ lookupD s.systemSignatures q.1 ∅ =
          lookupD s.systemSignatures q.1 ∅
      · simp only [if_pos hc]
        rw [setInsert_of_mem ((hcons q hq).mpr (Finset.inter_eq_right.mp hc))]
      · simp only [if_neg hc]
        rw [List.erase_of_not_mem
          (fun hmem => hc (Finset.inter_eq_right.mpr ((hcons q hq).mp hmem)))]
    calc s.systems.map _ = s.systems.map id := List.map_congr_left this
      _ = s.systems := List.map_id s.systems
  have hss_eq : (_OnEntitySignatureChanged s e).systemSignatures = s.systemSignatures := by
    show (s.systems.foldl (_OSCStep (lookupD s.entitySignatures e ∅) e)
        (s.systemSignatures, [])).1 = _
    exact oscFold_fst_id _ _ s.systems s.systemSignatures [] hsys
  exact ECSState.ext10 rfl rfl hsigs_eq rfl rfl rfl rfl rfl hsys_eq hss_eq

end OSCLemmas

section OpLemmas

theorem entityExists_iff {s : ECSState} {e : Entity} :
    EntityExists s e = true ↔ e ∈ s.usedEntities := by
  simp [EntityExists]

theorem destroyEntity_not_found {s : ECSState} {e : Entity}
    (h : EntityExists s e = false) :
    DestroyEntity s e = (s, some .warnDestroyEntityNotFound) := by
  simp [DestroyEntity, h]

theorem addComponent_no_entity {s : ECSState} {c : CName} {e : Entity} {v : Val}
    (h : EntityExists s e = false) :
    AddComponent s c e v = (s, some .errAddComponentEntityNotExist, none) := by
  simp [AddComponent, h]

theorem addComponent_unregistered {s : ECSState} {c : CName} {e : Entity} {v : Val}
    (he : EntityExists s e = true) (harr : mapLookup s.componentArrays c = none) :
    AddComponent s c e v = (s, some .errComponentNotRegistered, none) := by
  simp [AddComponent, he, harr]

theorem addComponent_guards {s : ECSState} {c : CName} {e : Entity} {v : Val}
    {arr : ComponentArray Val}
    (he : EntityExists s e = true) (harr : mapLookup s.componentArrays c = some arr) :
    AddComponent s c e v =
      (_OnEntitySignatureChanged
        { s with
            componentArrays := mapInsert s.componentArrays c (arr.AddComponent e v).1,
            entitySignatures := mapInsert s.entitySignatures e
              (insert ((mapLookup s.componentTypeToID c).getD 0)
                (lookupD s.entitySignatures e ∅)) } e,
       (arr.AddComponent e v).2, none) := by
  simp [AddComponent, he, harr]

theorem removeComponent_no_entity {s : ECSState} {c : CName} {e : Entity}
    (h : EntityExists s e = false) :
    RemoveComponent s c e = (s, some .errRemoveComponentEntityNotExist) := by
  simp [RemoveComponent, h]

theorem removeComponent_unregistered {s : ECSState} {c : CName} {e : Entity}
    (he : EntityExists s e = true) (harr : mapLookup s.componentArrays c = none) :
    RemoveComponent s c e = (s, some .errComponentNotRegistered) := by
  simp [RemoveComponent, he, harr]

theorem removeComponent_guards {s : ECSState} {c : CName} {e : Entity}
    {arr : ComponentArray Val}
    (he : EntityExists s e = true) (harr : mapLookup s.componentArrays c = some arr) :
    RemoveComponent s c e =
      (_OnEntitySignatureChanged
        { s with
            componentArrays := mapInsert s.componentArrays c (arr.RemoveComponent e).1,
            entitySignatures := mapInsert s.entitySignatures e
              ((lookupD s.entitySignatures e ∅).erase
                ((mapLookup s.componentTypeToID c).getD 0)) } e,
       (arr.RemoveComponent e).2) := by
  simp [RemoveComponent, he, harr]

theorem destroyEntity_exists {s : ECSState} {e : Entity} (he : EntityExists s e = true) :
    DestroyEntity s e =
      (let s2 := _OnEntitySignatureChanged
        { s with
            componentArrays := (List.range s.componentCount).foldl
              (_DestroyStep s.componentIDToType (lookupD s.entitySignatures e ∅) e)
              s.componentArrays,
            entitySignatures := mapInsert s.entitySignatures e ∅ } e
       ({ s2 with entitySignatures := mapErase s2.entitySignatures e,
                  usedEntities := s2.usedEntities.erase e,
                  availableEntities := e :: s2.availableEntities,
                  entityCount :=
                    if s2.entityCount = 0 then UINT32MAX else s2.entityCount - 1 },
        none)) := by
  simp [DestroyEntity, he]

theorem registerComponent_dup {s : ECSState} {c : CName}
    (h : (mapLookup s.componentArrays c).isSome = true) :
    RegisterComponent s c = (s, some .warnRegisterComponentDuplicate) := by
  simp [RegisterComponent, h]

theorem registerComponent_full {s : ECSState} {c : CName}
    (h1 : mapLookup s.componentArrays c = none) (h2 : s.componentCount ≥ ECS_MAX_COMPONENTS) :
    RegisterComponent s c = (s, some .errTooManyComponents) := by
  simp [RegisterComponent, h1, h2]

theorem registerComponent_new {s : ECSState} {c : CName}
    (h1 : mapLookup s.componentArrays c = none) (h2 : s.componentCount < ECS_MAX_COMPONENTS) :
    RegisterComponent s c =
      ({ s with
          componentTypeToID := mapInsert s.componentTypeToID c s.componentCount,
          componentIDToType := mapInsert s.componentIDToType s.componentCount c,
          componentArrays := mapInsert s.componentArrays c ⟨[], [], []⟩,
          componentCount := s.componentCount + 1 }, none) := by
  have h3 : ¬ECS_MAX_COMPONENTS ≤ s.componentCount := by omega
  have hm : (s.componentCount + 1) % 65536 = s.componentCount + 1 := by
    have h4 : s.componentCount < 100 := by simpa [ECS_MAX_COMPONENTS] using h2
    omega
  simp [RegisterComponent, h1, h3, hm]

theorem registerSystem_dup {s : ECSState} {t : SName}
    (h : (mapLookup s.systems t).isSome = true) :
    RegisterSystem s t = (s, some .warnRegisterSystemDuplicate, none) := by
  simp [RegisterSystem, h]

theorem registerSystem_new {s : ECSState} {t : SName}
    (h : mapLookup s.systems t = none) :
    RegisterSystem s t =
      ({ s with systems := mapInsert s.systems t [] }, none, some []) := by
  simp [RegisterSystem, h]

theorem newEntity_nonempty {s : ECSState} {a : Entity} {rest : List Entity}
    (hc : s.entityCount + 1 < 2 ^ 32) (hav : s.availableEntities = a :: rest) :
    NewEntity s =
      ({ s with entityCount := s.entityCount + 1,
                availableEntities := rest,
                usedEntities := setInsert s.usedEntities a,
                entitySignatures := mapInsert s.entitySignatures a ∅ }, .ok a) := by
  have hguard : ¬s.entityCount > UINT32MAX := by
    unfold UINT32MAX
    omega
  have hmod : (s.entityCount + 1) % 2 ^ 32 = s.entityCount + 1 := Nat.mod_eq_of_lt hc
  have hne : ¬((a :: rest : List Entity).isEmpty = true ∧
      (s.entityCount + 1) % 2 ^ 32 = 0) := by
    rintro ⟨hh, -⟩
    simp at hh
  simp only [NewEntity, hav]
  rw [if_neg hguard, if_neg hne,
    if_neg (by simp : ¬((a :: rest : List Entity).isEmpty = true))]
  simp only [hmod]

theorem newEntity_empty {s : ECSState}
    (hc : s.entityCount + 100 < 2 ^ 32) (hav : s.availableEntities = []) :
    NewEntity s =
      ({ s with entityCount := s.entityCount + 1,
                availableEntities :=
                  (List.range 99).map (fun j => s.entityCount + 1 + (j + 1)),
                usedEntities := setInsert s.usedEntities (s.entityCount + 1),
                entitySignatures := mapInsert s.entitySignatures (s.entityCount + 1) ∅ },
       .ok (s.entityCount + 1)) := by
  have hguard : ¬s.entityCount > UINT32MAX := by
    unfold UINT32MAX
    omega
  have hmod : (s.entityCount + 1) % 2 ^ 32 = s.entityCount + 1 := Nat.mod_eq_of_lt (by omega)
  have hbatch : (List.range 100).map (fun j => ((s.entityCount + 1) % 2 ^ 32 + j) % 2 ^ 32) =
      (s.entityCount + 1) :: (List.range 99).map (fun j => s.entityCount + 1 + (j + 1)) := by
    rw [hmod, List.range_succ_eq_map, List.map_cons, List.map_map, List.cons.injEq]
    refine ⟨by omega, ?_⟩
    apply List.map_congr_left
    intro j hj
    have hj99 : j < 99 := List.mem_range.mp hj
    simp only [Function.comp_apply]
    omega
  have hnz : ¬((s.entityCount + 1) % 2 ^ 32 = 0) := by omega
  simp only [NewEntity, hav]
  rw [if_neg hguard,
    if_neg (show ¬(([] : List Entity).isEmpty ∧ (s.entityCount + 1) % 2 ^ 32 = 0) from
      fun hh => hnz hh.2),
    if_pos List.isEmpty_nil, hbatch]
  simp only [hmod]

end OpLemmas

section DestroyFold

theorem destroyFold_lookup
    (idt : List (Nat × CName)) (sig : Signature) (e : Entity)
    (hinj : ∀ (i i' : Nat) (c : CName), mapLookup idt i = some c →
      mapLookup idt i' = some c → i = i') :
    ∀ (l : List Nat), l.Nodup →
      ∀ (arrs : List (CName × ComponentArray Val)) (cn : CName),
      mapLookup (l.foldl (_DestroyStep idt sig e) arrs) cn =
        match mapLookup arrs cn with
        | none => none
        | some arr =>
          some (if ∃ i ∈ l, i ∈ sig ∧ mapLookup idt i = some cn
                then (arr.RemoveComponent e).1 else arr) := by
  intro l
  induction l with
  | nil =>
    intro _ arrs cn
    cases h : mapLookup arrs cn <;> simp [h]
  | cons i t ih =>
    intro hnd arrs cn
    rw [List.foldl_cons]
    have hcond : ∀ cn : CName, ¬(i ∈ sig ∧ mapLookup idt i = some cn) →
        ((∃ x ∈ i :: t, x ∈ sig ∧ mapLookup idt x = some cn) ↔
          (∃ x ∈ t, x ∈ sig ∧ mapLookup idt x = some cn)) := by
      intro cn2 hni
      constructor
      · rintro ⟨x, hx, hp⟩
        rcases List.mem_cons.mp hx with rfl | hx2
        · exact absurd hp hni
        · exact ⟨x, hx2, hp⟩
      · rintro ⟨x, hx, hp⟩
        exact ⟨x, List.mem_cons_of_mem _ hx, hp⟩
    have hsame : ∀ (hni : ¬(i ∈ sig ∧ mapLookup idt i = some cn)),
        _DestroyStep idt sig e arrs i = arrs →
        mapLookup (t.foldl (_DestroyStep idt sig e) (_DestroyStep idt sig e arrs i)) cn =
          match mapLookup arrs cn with
          | none => none
          | some arr =>
            some (if ∃ x ∈ i :: t, x ∈ sig ∧ mapLookup idt x = some cn
                  then (arr.RemoveComponent e).1 else arr) := by
      intro hni hstep
      rw [hstep, ih (List.Nodup.of_cons hnd) arrs cn]
      cases h : mapLookup arrs cn
      · rfl
      · dsimp only
        by_cases hex : ∃ x ∈ t, x ∈ sig ∧ mapLookup idt x = some cn
        · rw [if_pos hex, if_pos ((hcond cn hni).mpr hex)]
        · rw [if_neg hex, if_neg (fun hh => hex ((hcond cn hni).mp hh))]
    by_cases hi : i ∈ sig
    case neg =>
      exact hsame (fun hh => hi hh.1) (by simp [_DestroyStep, hi])
    case pos =>
      cases hidt : mapLookup idt i with
      | none =>
        exact hsame (fun hh => by rw [hidt] at hh; cases hh.2)
          (by simp [_DestroyStep, hi, hidt])
      | some cname =>
        cases hcn : mapLookup arrs cname with
        | none =>
          by_cases hcc : cn = cname
          · subst hcc
            rw [show _DestroyStep idt sig e arrs i = arrs by
              simp [_DestroyStep, hi, hidt, hcn]]
            rw [ih (List.Nodup.of_cons hnd) arrs cn, hcn]
          · exact hsame
              (fun hh => hcc (Option.some.inj (hh.2.symm.trans hidt)))
              (by simp [_DestroyStep, hi, hidt, hcn])
        | some arr =>
          rw [show _DestroyStep idt sig e arrs i =
              mapInsert arrs cname (arr.RemoveComponent e).1 by
            simp [_DestroyStep, hi, hidt, hcn]]
          rw [ih (List.Nodup.of_cons hnd) _ cn]
          by_cases hcc : cn = cname
          · subst hcc
            rw [mapLookup_mapInsert_self, hcn]
            have hnone : ¬∃ i' ∈ t, i' ∈ sig ∧ mapLookup idt i' = some cn := by
              rintro ⟨i', hi't, -, hii⟩
              exact (List.nodup_cons.mp hnd).1 (hinj i i' cn hidt hii ▸ hi't)
            dsimp only
            rw [if_neg hnone, if_pos ⟨i, by simp, hi, hidt⟩]
          · rw [mapLookup_mapInsert_ne _ _ hcc]
            cases h : mapLookup arrs cn
            · rfl
            · dsimp only
              have hni : ¬(i ∈ sig ∧ mapLookup idt i = some cn) :=
                fun hh => hcc (Option.some.inj (hh.2.symm.trans hidt))
              by_cases hex : ∃ x ∈ t, x ∈ sig ∧ mapLookup idt x = some cn
              · rw [if_pos hex, if_pos ((hcond cn hni).mpr hex)]
              · rw [if_neg hex, if_neg (fun hh => hex ((hcond cn hni).mp hh))]

theorem destroyFold_nodup (idt : List (Nat × CName)) (sig : Signature) (e : Entity)
    (l : List Nat) :
    ∀ arrs : List (CName × ComponentArray Val),
      NodupKeys arrs → NodupKeys (l.foldl (_DestroyStep idt sig e) arrs) := by
  induction l with
  | nil => intro arrs h; exact h
  | cons i t ih =>
    intro arrs h
    rw [List.foldl_cons]
    apply ih
    by_cases hi : i ∈ sig
    · cases hidt : mapLookup idt i with
      | none =>
        rw [show _DestroyStep idt sig e arrs i = arrs by simp [_DestroyStep, hi, hidt]]
        exact h
      | some cname =>
        cases hcn : mapLookup arrs cname with
        | none =>
          rw [show _DestroyStep idt sig e arrs i = arrs by
            simp [_DestroyStep, hi, hidt, hcn]]
          exact h
        | some arr =>
          rw [show _DestroyStep idt sig e arrs i =
              mapInsert arrs cname (arr.RemoveComponent e).1 by
            simp [_DestroyStep, hi, hidt, hcn]]
          exact nodupKeys_mapInsert _ _ _ h
    · rw [show _DestroyStep idt sig e arrs i = arrs by simp [_DestroyStep, hi]]
      exact h

end DestroyFold

section InvPreservation

theorem Inv.alloc {s : ECSState} (h : Inv s) : AllocInv s := h.1

theorem Inv.reg {s : ECSState} (h : Inv s) : RegConsistent s := h.2.1

theorem Inv.storesWF {s : ECSState} (h : Inv s) : StoresWF s := h.2.2.1

theorem Inv.sig {s : ECSState} (h : Inv s) : SigConsistent s := h.2.2.2.1

theorem Inv.onlyLive {s : ECSState} (h : Inv s) : StoresOnlyLive s := h.2.2.2.2.1

theorem Inv.sigBound {s : ECSState} (h : Inv s) : SigBound s := h.2.2.2.2.2.1

theorem Inv.sysWF {s : ECSState} (h : Inv s) : SysWF s := h.2.2.2.2.2.2.1

theorem Inv.sigsNodup {s : ECSState} (h : Inv s) : NodupKeys s.entitySignatures :=
  h.2.2.2.2.2.2.2

theorem inv_initState : Inv initState := by
  refine ⟨⟨0, by norm_num, by simp [initState], by simp [initState]⟩,
    ?_, ?_, ?_, ?_, ?_, ?_, ?_⟩ <;>
    simp [RegConsistent, StoresWF, SigConsistent, StoresOnlyLive, SigBound, SysWF,
      NodupKeys, mapKeys, initState, mapLookup, lookupD, ECS_MAX_COMPONENTS]

theorem inv_OSC {s : ECSState} {e : Entity} (h : Inv s) :
    Inv (_OnEntitySignatureChanged s e) := by
  obtain ⟨hA, hR, hW, hS, hL, hB, hY, hN⟩ := h
  refine ⟨hA, hR, hW, ?_, hL, ?_, ?_, OSC_entitySigs_nodup s e hN⟩
  · intro e' he' c i arr hc harr
    rw [OSC_entitySigs_lookupD]
    exact hS e' he' c i arr hc harr
  · intro x
    rw [OSC_entitySigs_lookupD]
    exact hB x
  · obtain ⟨h1, h2, h3⟩ := hY
    refine ⟨?_, ?_, OSC_sysSigs_nodup s e h3⟩
    · intro p hp
      rw [OSC_systems] at hp
      obtain ⟨q, hq, rfl⟩ := List.mem_map.mp hp
      by_cases hc : lookupD s.entitySignatures e ∅ ∩ lookupD s.systemSignatures q.1 ∅ =
          lookupD s.systemSignatures q.1 ∅
      · rw [if_pos hc]
        exact nodup_setInsert _ _ (h1 q hq)
      · rw [if_neg hc]
        exact (h1 q hq).erase e
    · have hkeys : mapKeys (_OnEntitySignatureChanged s e).systems = mapKeys s.systems := by
        rw [OSC_systems, mapKeys, mapKeys, List.map_map]
        apply List.map_congr_left
        intro q hq
        rw [Function.comp_apply]
        by_cases hc : lookupD s.entitySignatures e ∅ ∩ lookupD s.systemSignatures q.1 ∅ =
            lookupD s.systemSignatures q.1 ∅
        · rw [if_pos hc]
        · rw [if_neg hc]
      rw [NodupKeys, hkeys]
      exact h2

theorem inv_registerSystem {s : ECSState} {t : SName} (h : Inv s) :
    Inv (RegisterSystem s t).1 := by
  by_cases hdup : (mapLookup s.systems t).isSome = true
  · rw [registerSystem_dup hdup]
    exact h
  · have hnone : mapLookup s.systems t = none := by
      cases hh : mapLookup s.systems t
      · rfl
      · rw [hh] at hdup
        simp at hdup
    rw [registerSystem_new hnone]
    obtain ⟨hA, hR, hW, hS, hL, hB, ⟨h1, h2, h3⟩, hN⟩ := h
    refine ⟨hA, hR, hW, hS, hL, hB, ⟨?_, ?_, h3⟩, hN⟩
    · intro p hp
      rcases mem_of_mem_mapInsert hp with rfl | hp2
      · exact List.nodup_nil
      · exact h1 p hp2
    · show NodupKeys (mapInsert s.systems t [])
      exact nodupKeys_mapInsert _ _ _ h2

theorem inv_setSystemSignature {s : ECSState} {t : SName} {sg : Signature} (h : Inv s) :
    Inv (SetSystemSignature s t sg).1 := by
  unfold SetSystemSignature
  split
  · exact h
  · split
    · exact h
    · obtain ⟨hA, hR, hW, hS, hL, hB, ⟨h1, h2, h3⟩, hN⟩ := h
      exact ⟨hA, hR, hW, hS, hL, hB, ⟨h1, h2, nodupKeys_mapInsert _ _ _ h3⟩, hN⟩

theorem inv_registerComponent {s : ECSState} {c : CName} (h : Inv s) :
    Inv (RegisterComponent s c).1 := by
  by_cases hdup : (mapLookup s.componentArrays c).isSome = true
  · rw [registerComponent_dup hdup]
    exact h
  · have hnone : mapLookup s.componentArrays c = none := by
      cases hh : mapLookup s.componentArrays c
      · rfl
      · rw [hh] at hdup
        simp at hdup
    by_cases hfull : s.componentCount ≥ ECS_MAX_COMPONENTS
    · rw [registerComponent_full hnone hfull]
      exact h
    · rw [registerComponent_new hnone (by omega)]
      dsimp only
      obtain ⟨hA, ⟨hR1, hR2, hR3, hR4, hR5, hR6, hR7⟩, hW, hS, hL, hB, hY, hN⟩ := h
      have htid_none : mapLookup s.componentTypeToID c = none := by
        cases hh : mapLookup s.componentTypeToID c
        · rfl
        · have := hR1 c
          rw [hnone, hh] at this
          simp at this
      have hidt_none : mapLookup s.componentIDToType s.componentCount = none := by
        cases hh : mapLookup s.componentIDToType s.componentCount
        · rfl
        · rename_i cname
          have := (hR2 cname s.componentCount (hR3 _ _ hh)).2
          omega
      refine ⟨hA, ⟨?_, ?_, ?_,
        (show s.componentCount + 1 ≤ ECS_MAX_COMPONENTS by omega), ?_, ?_, ?_⟩,
        ?_, ?_, ?_, ?_, hY, hN⟩
      · intro c'
        by_cases hcc : c' = c
        · subst hcc
          simp [mapLookup_mapInsert_self]
        · rw [mapLookup_mapInsert_ne _ _ hcc, mapLookup_mapInsert_ne _ _ hcc]
          exact hR1 c'
      · intro c' i hci
        by_cases hcc : c' = c
        · subst hcc
          rw [mapLookup_mapInsert_self] at hci
          obtain rfl : s.componentCount = i := Option.some.inj hci
          exact ⟨mapLookup_mapInsert_self _ _ _,
            show s.componentCount < s.componentCount + 1 by omega⟩
        · rw [mapLookup_mapInsert_ne _ _ hcc] at hci
          have h2 := hR2 c' i hci
          have hine : i ≠ s.componentCount := by omega
          rw [mapLookup_mapInsert_ne _ _ hine]
          exact ⟨h2.1, show i < s.componentCount + 1 by omega⟩
      · intro i c' hic
        by_cases hii : i = s.componentCount
        · subst hii
          rw [mapLookup_mapInsert_self] at hic
          obtain rfl : c = c' := Option.some.inj hic
          simp [mapLookup_mapInsert_self]
        · rw [mapLookup_mapInsert_ne _ _ hii] at hic
          have hcc : c' ≠ c := by
            rintro rfl
            rw [hR3 i c' hic] at htid_none
            cases htid_none
          rw [mapLookup_mapInsert_ne _ _ hcc]
          exact hR3 i c' hic
      · exact nodupKeys_mapInsert _ _ _ hR5
      · exact nodupKeys_mapInsert _ _ _ hR6
      · exact nodupKeys_mapInsert _ _ _ hR7
      · intro p hp
        rcases mem_of_mem_mapInsert hp with rfl | hp2
        · exact ComponentArray.wf_empty
        · exact hW p hp2
      · intro e' he' c' i arr hci harr
        by_cases hcc : c' = c
        · subst hcc
          rw [mapLookup_mapInsert_self] at hci harr
          obtain rfl : s.componentCount = i := Option.some.inj hci
          obtain rfl : (⟨[], [], []⟩ : ComponentArray Val) = arr := Option.some.inj harr
          constructor
          · intro hmem
            exact absurd (hB e' hmem) (by simp)
          · intro hmem
            simp [ComponentArray.HasComponent, mapLookup] at hmem
        · rw [mapLookup_mapInsert_ne _ _ hcc] at hci harr
          exact hS e' he' c' i arr hci harr
      · intro p hp e' hhas
        rcases mem_of_mem_mapInsert hp with rfl | hp2
        · simp [ComponentArray.HasComponent, mapLookup] at hhas
        · exact hL p hp2 e' hhas
      · intro x
        exact (hB x).trans (Finset.range_subset.mpr
          (show s.componentCount ≤ s.componentCount + 1 by omega))

theorem inv_addComponent {s : ECSState} {c : CName} {e : Entity} {v : Val} (h : Inv s) :
    Inv (AddComponent s c e v).1 := by
  by_cases he : EntityExists s e = true
  case neg =>
    rw [addComponent_no_entity (by simpa using he)]
    exact h
  case pos =>
  cases harr : mapLookup s.componentArrays c with
  | none =>
    rw [addComponent_unregistered he harr]
    exact h
  | some arr =>
    rw [addComponent_guards he harr]
    apply inv_OSC
    obtain ⟨hA, ⟨hR1, hR2, hR3, hR4, hR5, hR6, hR7⟩, hW, hS, hL, hB, hY, hN⟩ := h
    obtain ⟨cid, hcid⟩ := Option.isSome_iff_exists.mp
      (by rw [← hR1 c, harr]; rfl)
    have hgd : (mapLookup s.componentTypeToID c).getD 0 = cid := by rw [hcid]; rfl
    have hcidlt : cid < s.componentCount := (hR2 c cid hcid).2
    have hinj : ∀ c' i', c' ≠ c → mapLookup s.componentTypeToID c' = some i' →
        i' ≠ cid := by
      intro c' i' hne hci' heq
      rw [heq] at hci'
      exact hne (Option.some.inj ((hR2 c' cid hci').1.symm.trans (hR2 c cid hcid).1))
    rw [hgd]
    refine ⟨hA, ⟨?_, hR2, hR3, hR4, nodupKeys_mapInsert _ _ _ hR5, hR6, hR7⟩,
      ?_, ?_, ?_, ?_, hY, nodupKeys_mapInsert _ _ _ hN⟩
    · intro c'
      by_cases hcc : c' = c
      · rw [hcc, mapLookup_mapInsert_self, hcid]
        rfl
      · rw [mapLookup_mapInsert_ne _ _ hcc]
        exact hR1 c'
    · intro p hp
      rcases mem_of_mem_mapInsert hp with rfl | hp2
      · exact ComponentArray.addComponent_WF (hW (c, arr) (mapLookup_some_mem harr))
      · exact hW p hp2
    · intro e' he' c' i arr'' hci harr''
      by_cases hee : e' = e
      · rw [hee] at he' ⊢
        rw [lookupD_mapInsert_self]
        by_cases hcc : c' = c
        · rw [hcc] at hci harr''
          have hii : cid = i := Option.some.inj (hcid.symm.trans hci)
          rw [mapLookup_mapInsert_self] at harr''
          have harr2 : arr'' = (arr.AddComponent e v).1 := (Option.some.inj harr'').symm
          rw [harr2, ← hii]
          simp [ComponentArray.addComponent_has_self]
        · rw [mapLookup_mapInsert_ne _ _ hcc] at harr''
          rw [Finset.mem_insert, or_iff_right (hinj c' i hcc hci)]
          exact hS e he' c' i arr'' hci harr''
      · rw [lookupD_mapInsert_ne _ _ _ hee]
        by_cases hcc : c' = c
        · rw [hcc] at hci harr''
          have hii : cid = i := Option.some.inj (hcid.symm.trans hci)
          rw [mapLookup_mapInsert_self] at harr''
          have harr2 : arr'' = (arr.AddComponent e v).1 := (Option.some.inj harr'').symm
          rw [harr2, ComponentArray.addComponent_has_other _ hee, ← hii]
          exact hS e' he' c cid arr hcid harr
        · rw [mapLookup_mapInsert_ne _ _ hcc] at harr''
          exact hS e' he' c' i arr'' hci harr''
    · intro p hp e'' hhas
      rcases mem_of_mem_mapInsert hp with rfl | hp2
      · by_cases hee : e'' = e
        · rw [hee]
          exact entityExists_iff.mp he
        · rw [ComponentArray.addComponent_has_other _ hee] at hhas
          exact hL (c, arr) (mapLookup_some_mem harr) e'' hhas
      · exact hL p hp2 e'' hhas
    · intro x
      by_cases hee : x = e
      · rw [hee, lookupD_mapInsert_self]
        exact Finset.insert_subset (Finset.mem_range.mpr hcidlt) (hB e)
      · rw [lookupD_mapInsert_ne _ _ _ hee]
        exact hB x

theorem inv_removeComponent {s : ECSState} {c : CName} {e : Entity} (h : Inv s) :
    Inv (RemoveComponent s c e).1 := by
  by_cases he : EntityExists s e = true
  case neg =>
    rw [removeComponent_no_entity (by simpa using he)]
    exact h
  case pos =>
  cases harr : mapLookup s.componentArrays c with
  | none =>
    rw [removeComponent_unregistered he harr]
    exact h
  | some arr =>
    rw [removeComponent_guards he harr]
    apply inv_OSC
    obtain ⟨hA, ⟨hR1, hR2, hR3, hR4, hR5, hR6, hR7⟩, hW, hS, hL, hB, hY, hN⟩ := h
    obtain ⟨cid, hcid⟩ := Option.isSome_iff_exists.mp
      (by rw [← hR1 c, harr]; rfl)
    have hgd : (mapLookup s.componentTypeToID c).getD 0 = cid := by rw [hcid]; rfl
    have harrWF : arr.WF := hW (c, arr) (mapLookup_some_mem harr)
    have hinj : ∀ c' i', c' ≠ c → mapLookup s.componentTypeToID c' = some i' →
        i' ≠ cid := by
      intro c' i' hne hci' heq
      rw [heq] at hci'
      exact hne (Option.some.inj ((hR2 c' cid hci').1.symm.trans (hR2 c cid hcid).1))
    rw [hgd]
    refine ⟨hA, ⟨?_, hR2, hR3, hR4, nodupKeys_mapInsert _ _ _ hR5, hR6, hR7⟩,
      ?_, ?_, ?_, ?_, hY, nodupKeys_mapInsert _ _ _ hN⟩
    · intro c'
      by_cases hcc : c' = c
      · rw [hcc, mapLookup_mapInsert_self, hcid]
        rfl
      · rw [mapLookup_mapInsert_ne _ _ hcc]
        exact hR1 c'
    · intro p hp
      rcases mem_of_mem_mapInsert hp with rfl | hp2
      · exact ComponentArray.removeComponent_WF harrWF
      · exact hW p hp2
    · intro e' he' c' i arr'' hci harr''
      by_cases hee : e' = e
      · rw [hee] at he' ⊢
        rw [lookupD_mapInsert_self]
        by_cases hcc : c' = c
        · rw [hcc] at hci harr''
          have hii : cid = i := Option.some.inj (hcid.symm.trans hci)
          rw [mapLookup_mapInsert_self] at harr''
          have harr2 : arr'' = (arr.RemoveComponent e).1 := (Option.some.inj harr'').symm
          rw [harr2, ← hii]
          simp [ComponentArray.removeComponent_has_self harrWF]
        · rw [mapLookup_mapInsert_ne _ _ hcc] at harr''
          rw [Finset.mem_erase, and_iff_right (hinj c' i hcc hci)]
          exact hS e he' c' i arr'' hci harr''
      · rw [lookupD_mapInsert_ne _ _ _ hee]
        by_cases hcc : c' = c
        · rw [hcc] at hci harr''
          have hii : cid = i := Option.some.inj (hcid.symm.trans hci)
          rw [mapLookup_mapInsert_self] at harr''
          have harr2 : arr'' = (arr.RemoveComponent e).1 := (Option.some.inj harr'').symm
          rw [harr2, ComponentArray.removeComponent_has_other harrWF hee, ← hii]
          exact hS e' he' c cid arr hcid harr
        · rw [mapLookup_mapInsert_ne _ _ hcc] at harr''
          exact hS e' he' c' i arr'' hci harr''
    · intro p hp e'' hhas
      rcases mem_of_mem_mapInsert hp with rfl | hp2
      · by_cases hee : e'' = e
        · rw [hee]
          exact entityExists_iff.mp he
        · rw [ComponentArray.removeComponent_has_other harrWF hee] at hhas
          exact hL (c, arr) (mapLookup_some_mem harr) e'' hhas
      · exact hL p hp2 e'' hhas
    · intro x
      by_cases hee : x = e
      · rw [hee, lookupD_mapInsert_self]
        exact (Finset.erase_subset _ _).trans (hB e)
      · rw [lookupD_mapInsert_ne _ _ _ hee]
        exact hB x

theorem inv_fresh {s : ECSState} {e : Entity} {av : List Entity} {cnt : Nat}
    (h : Inv s) (he : e ∉ s.usedEntities)
    (hA : AllocInv { s with availableEntities := av,
                            usedEntities := s.usedEntities ++ [e],
                            entitySignatures := mapInsert s.entitySignatures e ∅,
                            entityCount := cnt }) :
    Inv { s with availableEntities := av,
                 usedEntities := s.usedEntities ++ [e],
                 entitySignatures := mapInsert s.entitySignatures e ∅,
                 entityCount := cnt } := by
  obtain ⟨-, hR, hW, hS, hL, hB, hY, hN⟩ := h
  refine ⟨hA, hR, hW, ?_, ?_, ?_, hY, nodupKeys_mapInsert _ _ _ hN⟩
  · intro e' he' c i arr hci harr
    rcases List.mem_append.mp he' with he2 | he2
    · have hne : e' ≠ e := fun hh => he (hh ▸ he2)
      rw [show lookupD (mapInsert s.entitySignatures e ∅) e' ∅ =
          lookupD s.entitySignatures e' ∅ from lookupD_mapInsert_ne _ _ _ hne]
      exact hS e' he2 c i arr hci harr
    · obtain rfl : e' = e := by simpa using he2
      rw [show lookupD (mapInsert s.entitySignatures e' ∅) e' ∅ = ∅ from
        lookupD_mapInsert_self _ _ _ _]
      constructor
      · intro hmem
        simp at hmem
      · intro hmem
        exact absurd (hL (c, arr) (mapLookup_some_mem harr) e' hmem) he
  · intro p hp e'' hhas
    exact List.mem_append.mpr (Or.inl (hL p hp e'' hhas))
  · intro x
    by_cases hee : x = e
    · rw [hee, lookupD_mapInsert_self]
      simp
    · rw [lookupD_mapInsert_ne _ _ _ hee]
      exact hB x

open List in
theorem newEntity_spec {s : ECSState} (h : Inv s) (hb : s.entityCount + 100 < 2 ^ 32) :
    ∃ e : Entity,
      (NewEntity s).2 = .ok e ∧ e ≠ 0 ∧ e ∉ s.usedEntities ∧
      (NewEntity s).1.usedEntities = s.usedEntities ++ [e] ∧
      (NewEntity s).1.entitySignatures = mapInsert s.entitySignatures e ∅ ∧
      (NewEntity s).1.entityCount = s.entityCount + 1 ∧
      Inv (NewEntity s).1 := by
  obtain ⟨k, hk, hperm, hcount⟩ := h.alloc
  have hmapnd : (((List.range (100 * k)).map (· + 1)) : List Entity).Nodup :=
    (List.nodup_range _).map (add_left_injective 1)
  have hnodup : (s.availableEntities ++ s.usedEntities).Nodup := hperm.nodup_iff.mpr hmapnd
  have hbounds : ∀ x ∈ s.availableEntities ++ s.usedEntities, 1 ≤ x ∧ x ≤ 100 * k := by
    intro x hx
    obtain ⟨y, hy, hxy⟩ := List.mem_map.mp (hperm.mem_iff.mp hx)
    have hy2 := List.mem_range.mp hy
    have hxy2 : x = y + 1 := hxy.symm
    subst hxy2
    exact ⟨Nat.succ_le_succ (Nat.zero_le y), Nat.succ_le_of_lt hy2⟩
  have hlen : s.availableEntities.length + s.usedEntities.length = 100 * k := by
    have := hperm.length_eq
    simpa using this
  cases hav : s.availableEntities with
  | cons a rest =>
    have hres := newEntity_nonempty (show s.entityCount + 1 < 2 ^ 32 by omega) hav
    have hmema : a ∈ s.availableEntities ++ s.usedEntities := by
      rw [hav]
      simp
    have hanull : a ≠ 0 := by
      have h1 := (hbounds a hmema).1
      exact Nat.pos_iff_ne_zero.mp h1
    have hnotused : a ∉ s.usedEntities := by
      rw [hav] at hnodup
      simp only [List.cons_append, List.nodup_cons] at hnodup
      exact fun hmem => hnodup.1 (List.mem_append.mpr (Or.inr hmem))
    have hset : setInsert s.usedEntities a = s.usedEntities ++ [a] := by
      simp [setInsert, hnotused]
    refine ⟨a, by rw [hres], hanull, hnotused, by rw [hres]; exact hset,
      by rw [hres], by rw [hres], ?_⟩
    rw [hres]
    have hstate : ({ s with entityCount := s.entityCount + 1,
                            availableEntities := rest,
                            usedEntities := setInsert s.usedEntities a,
                            entitySignatures := mapInsert s.entitySignatures a ∅ }) =
        { s with availableEntities := rest,
                 usedEntities := s.usedEntities ++ [a],
                 entitySignatures := mapInsert s.entitySignatures a ∅,
                 entityCount := s.entityCount + 1 } := by
      rw [hset]
    rw [hstate]
    apply inv_fresh h hnotused
    refine ⟨k, hk, ?_, ?_⟩
    · show (rest ++ (s.usedEntities ++ [a])).Perm _
      calc rest ++ (s.usedEntities ++ [a])
          = (rest ++ s.usedEntities) ++ [a] := by rw [List.append_assoc]
        _ ~ a :: (rest ++ s.usedEntities) := List.perm_append_singleton _ _
        _ = (a :: rest) ++ s.usedEntities := rfl
        _ ~ (List.range (100 * k)).map (· + 1) := hav ▸ hperm
    · show s.entityCount + 1 = (s.usedEntities ++ [a]).length
      simp [hcount]
  | nil =>
    have hused : s.usedEntities.length = 100 * k := by simpa [hav] using hlen
    have hcnt : s.entityCount = 100 * k := hcount.trans hused
    have hres := newEntity_empty hb hav
    have hnotused : s.entityCount + 1 ∉ s.usedEntities := by
      intro hmem
      have h2 := (hbounds _ (List.mem_append.mpr (Or.inr hmem))).2
      rw [hcnt] at h2
      exact Nat.not_succ_le_self _ h2
    have hset : setInsert s.usedEntities (s.entityCount + 1) =
        s.usedEntities ++ [s.entityCount + 1] := by
      simp [setInsert, hnotused]
    refine ⟨s.entityCount + 1, by rw [hres], Nat.succ_ne_zero _, hnotused,
      by rw [hres]; exact hset, by rw [hres], by rw [hres], ?_⟩
    rw [hres]
    have hstate : ({ s with entityCount := s.entityCount + 1,
                            availableEntities :=
                              (List.range 99).map (fun j => s.entityCount + 1 + (j + 1)),
                            usedEntities := setInsert s.usedEntities (s.entityCount + 1),
                            entitySignatures :=
                              mapInsert s.entitySignatures (s.entityCount + 1) ∅ }) =
        { s with availableEntities :=
                   (List.range 99).map (fun j => s.entityCount + 1 + (j + 1)),
                 usedEntities := s.usedEntities ++ [s.entityCount + 1],
                 entitySignatures := mapInsert s.entitySignatures (s.entityCount + 1) ∅,
                 entityCount := s.entityCount + 1 } := by
      rw [hset]
    rw [hstate]
    apply inv_fresh h hnotused
    refine ⟨k + 1, by omega, ?_, ?_⟩
    · show ((List.range 99).map (fun j => s.entityCount + 1 + (j + 1)) ++
        (s.usedEntities ++ [s.entityCount + 1])).Perm
          ((List.range (100 * (k + 1))).map (· + 1))
      have htarget : ((List.range (100 * (k + 1))).map (· + 1) : List Entity) =
          (List.range (100 * k)).map (· + 1) ++
            (List.range 100).map (fun j => 100 * k + j + 1) := by
        have hsplit : 100 * (k + 1) = 100 * k + 100 := by ring
        rw [hsplit, List.range_add, List.map_append, List.map_map]
        congr 1
      have hbatch : (((s.entityCount + 1) ::
            ((List.range 99).map (fun j => s.entityCount + 1 + (j + 1)))) : List Entity) =
          (List.range 100).map (fun j => 100 * k + j + 1) := by
        have h1 : ((List.range 100).map (fun j => 100 * k + j + 1) : List Entity) =
            (List.range (1 + 99)).map (fun j => 100 * k + j + 1) := rfl
        rw [h1, List.range_add, List.map_append, List.map_map]
        have h2 : ((List.range 1).map (fun j => 100 * k + j + 1) : List Entity) =
            [s.entityCount + 1] := by
          have hr1 : List.range 1 = [0] := rfl
          rw [hr1]
          simp [hcnt]
        rw [h2]
        have h3 : ((List.range 99).map
              ((fun j => 100 * k + j + 1) ∘ (fun j => 1 + j)) : List Entity) =
            (List.range 99).map (fun j => s.entityCount + 1 + (j + 1)) := by
          apply List.map_congr_left
          intro j hj
          simp only [Function.comp_apply]
          rw [hcnt]
          ring
        rw [h3]
        rfl
      have hupm : s.usedEntities.Perm ((List.range (100 * k)).map (· + 1)) := by
        simpa [hav] using hperm
      calc (List.range 99).map (fun j => s.entityCount + 1 + (j + 1)) ++
              (s.usedEntities ++ [s.entityCount + 1])
          = ((List.range 99).map (fun j => s.entityCount + 1 + (j + 1)) ++
              s.usedEntities) ++ [s.entityCount + 1] := by rw [List.append_assoc]
        _ ~ (s.entityCount + 1) ::
              ((List.range 99).map (fun j => s.entityCount + 1 + (j + 1)) ++
                s.usedEntities) := List.perm_append_singleton _ _
        _ = ((s.entityCount + 1) ::
              (List.range 99).map (fun j => s.entityCount + 1 + (j + 1))) ++
                s.usedEntities := rfl
        _ = (List.range 100).map (fun j => 100 * k + j + 1) ++ s.usedEntities := by
              rw [hbatch]
        _ ~ s.usedEntities ++ (List.range 100).map (fun j => 100 * k + j + 1) :=
              List.perm_append_comm
        _ ~ (List.range (100 * k)).map (· + 1) ++
              (List.range 100).map (fun j => 100 * k + j + 1) :=
              hupm.append_right _
        _ = (List.range (100 * (k + 1))).map (· + 1) := htarget.symm
    · show s.entityCount + 1 = (s.usedEntities ++ [s.entityCount + 1]).length
      simp [hcount]

theorem destroyClean {s : ECSState} {e : Entity}
    {arrs : List (CName × ComponentArray Val)} (h : Inv s) (he : e ∈ s.usedEntities)
    (hchar : ∀ cn : CName, mapLookup arrs cn =
      match mapLookup s.componentArrays cn with
      | none => none
      | some arr =>
        some (if ∃ i ∈ List.range s.componentCount,
                i ∈ lookupD s.entitySignatures e ∅ ∧
                  mapLookup s.componentIDToType i = some cn
              then (arr.RemoveComponent e).1 else arr)) :
    ∀ (cn : CName) (arr' : ComponentArray Val),
      mapLookup arrs cn = some arr' → arr'.HasComponent e = false := by
  intro cn arr' hl
  rw [hchar cn] at hl
  cases horig : mapLookup s.componentArrays cn with
  | none => rw [horig] at hl; cases hl
  | some arr =>
    rw [horig] at hl
    dsimp only at hl
    have harrWF := h.storesWF (cn, arr) (mapLookup_some_mem horig)
    split at hl
    case isTrue hcond =>
      rw [← Option.some.inj hl]
      exact ComponentArray.removeComponent_has_self harrWF
    case isFalse hcond =>
      rw [← Option.some.inj hl]
      by_cases hhas : arr.HasComponent e = true
      · exfalso
        have hsomeid : (mapLookup s.componentTypeToID cn).isSome = true := by
          rw [← h.reg.1 cn, horig]
          rfl
        obtain ⟨i, hi⟩ := Option.isSome_iff_exists.mp hsomeid
        have hbit := (h.sig e he cn i arr hi horig).mpr hhas
        have h2 := h.reg.2.1 cn i hi
        exact hcond ⟨i, List.mem_range.mpr h2.2, hbit, h2.1⟩
      · simpa using hhas

theorem inv_destroyMid {s : ECSState} {e : Entity}
    {arrs : List (CName × ComponentArray Val)} (h : Inv s) (he : e ∈ s.usedEntities)
    (hnd : NodupKeys arrs)
    (hchar : ∀ cn : CName, mapLookup arrs cn =
      match mapLookup s.componentArrays cn with
      | none => none
      | some arr =>
        some (if ∃ i ∈ List.range s.componentCount,
                i ∈ lookupD s.entitySignatures e ∅ ∧
                  mapLookup s.componentIDToType i = some cn
              then (arr.RemoveComponent e).1 else arr)) :
    Inv { s with componentArrays := arrs,
                 entitySignatures := mapInsert s.entitySignatures e ∅ } := by
  have hclean := destroyClean h he hchar
  obtain ⟨hA, ⟨hR1, hR2, hR3, hR4, hR5, hR6, hR7⟩, hW, hS, hL, hB, hY, hN⟩ := h
  refine ⟨hA, ⟨?_, hR2, hR3, hR4, hnd, hR6, hR7⟩, ?_, ?_, ?_, ?_, hY,
    nodupKeys_mapInsert _ _ _ hN⟩
  · intro c
    rw [hchar c]
    cases horig : mapLookup s.componentArrays c with
    | none =>
      have h1 := hR1 c
      rw [horig] at h1
      exact h1
    | some arr =>
      have h1 := hR1 c
      rw [horig] at h1
      exact h1
  · intro p hp
    obtain ⟨cn, parr⟩ := p
    have hlk := mapLookup_of_mem_nodup hnd hp
    rw [hchar cn] at hlk
    cases horig : mapLookup s.componentArrays cn with
    | none => rw [horig] at hlk; cases hlk
    | some arr =>
      rw [horig] at hlk
      dsimp only at hlk
      have harrWF := hW (cn, arr) (mapLookup_some_mem horig)
      split at hlk
      · rw [show parr = (arr.RemoveComponent e).1 from (Option.some.inj hlk).symm]
        exact ComponentArray.removeComponent_WF harrWF
      · rw [show parr = arr from (Option.some.inj hlk).symm]
        exact harrWF
  · intro e' he' c i arr' hci harr'
    by_cases hee : e' = e
    · rw [hee]
      rw [show lookupD (mapInsert s.entitySignatures e ∅) e ∅ = ∅ from
        lookupD_mapInsert_self _ _ _ _]
      have hfalse := hclean c arr' harr'
      constructor
      · intro hmem
        simp at hmem
      · intro hmem
        rw [hfalse] at hmem
        cases hmem
    · rw [show lookupD (mapInsert s.entitySignatures e ∅) e' ∅ =
          lookupD s.entitySignatures e' ∅ from lookupD_mapInsert_ne _ _ _ hee]
      rw [hchar c] at harr'
      cases horig : mapLookup s.componentArrays c with
      | none => rw [horig] at harr'; cases harr'
      | some arr =>
        rw [horig] at harr'
        dsimp only at harr'
        have harrWF := hW (c, arr) (mapLookup_some_mem horig)
        have hhaseq : arr'.HasComponent e' = arr.HasComponent e' := by
          split at harr'
          · rw [← Option.some.inj harr']
            exact ComponentArray.removeComponent_has_other harrWF hee
          · rw [← Option.some.inj harr']
        rw [hhaseq]
        exact hS e' he' c i arr hci horig
  · intro p hp e2 hhas
    obtain ⟨cn, parr⟩ := p
    have hlk := mapLookup_of_mem_nodup hnd hp
    rw [hchar cn] at hlk
    cases horig : mapLookup s.componentArrays cn with
    | none => rw [horig] at hlk; cases hlk
    | some arr =>
      rw [horig] at hlk
      dsimp only at hlk
      have harrWF := hW (cn, arr) (mapLookup_some_mem horig)
      split at hlk
      · rw [← Option.some.inj hlk] at hhas
        by_cases hee : e2 = e
        · rw [hee, ComponentArray.removeComponent_has_self harrWF] at hhas
          cases hhas
        · rw [ComponentArray.removeComponent_has_other harrWF hee] at hhas
          exact hL (cn, arr) (mapLookup_some_mem horig) e2 hhas
      · rw [← Option.some.inj hlk] at hhas
        exact hL (cn, arr) (mapLookup_some_mem horig) e2 hhas
  · intro x
    by_cases hee : x = e
    · rw [hee]
      rw [show lookupD (mapInsert s.entitySignatures e ∅) e ∅ = ∅ from
        lookupD_mapInsert_self _ _ _ _]
      exact Finset.empty_subset _
    · rw [show lookupD (mapInsert s.entitySignatures e ∅) x ∅ =
          lookupD s.entitySignatures x ∅ from lookupD_mapInsert_ne _ _ _ hee]
      exact hB x

open List in
theorem inv_destroyFinal {s2 : ECSState} {e : Entity} (h2 : Inv s2)
    (he : e ∈ s2.usedEntities)
    (hclean : ∀ (cn : CName) (arr : ComponentArray Val),
        mapLookup s2.componentArrays cn = some arr → arr.HasComponent e = false) :
    Inv { s2 with entitySignatures := mapErase s2.entitySignatures e,
                  usedEntities := s2.usedEntities.erase e,
                  availableEntities := e :: s2.availableEntities,
                  entityCount :=
                    if s2.entityCount = 0 then UINT32MAX else s2.entityCount - 1 } := by
  obtain ⟨⟨k, hk, hperm, hcount⟩, hR, hW, hS, hL, hB, hY, hN⟩ := h2
  have hmapnd : (((List.range (100 * k)).map (· + 1)) : List Entity).Nodup :=
    (List.nodup_range _).map (add_left_injective 1)
  have hnodupAll : (s2.availableEntities ++ s2.usedEntities).Nodup :=
    hperm.nodup_iff.mpr hmapnd
  have hnodupUsed : s2.usedEntities.Nodup := (List.nodup_append.mp hnodupAll).2.1
  have hlenpos : 1 ≤ s2.usedEntities.length :=
    List.length_pos.mpr (fun hnil => by rw [hnil] at he; cases he)
  refine ⟨⟨k, hk, ?_, ?_⟩, hR, hW, ?_, ?_, ?_, hY, nodupKeys_mapErase _ _ hN⟩
  · show ((e :: s2.availableEntities) ++ s2.usedEntities.erase e).Perm _
    have hpe : s2.usedEntities.Perm (e :: s2.usedEntities.erase e) :=
      List.perm_cons_erase he
    calc (e :: s2.availableEntities) ++ s2.usedEntities.erase e
        = e :: (s2.availableEntities ++ s2.usedEntities.erase e) := rfl
      _ ~ s2.availableEntities ++ e :: s2.usedEntities.erase e := List.perm_middle.symm
      _ ~ s2.availableEntities ++ s2.usedEntities := List.Perm.append_left _ hpe.symm
      _ ~ (List.range (100 * k)).map (· + 1) := hperm
  · show (if s2.entityCount = 0 then UINT32MAX else s2.entityCount - 1) =
      (s2.usedEntities.erase e).length
    have hne0 : ¬ s2.entityCount = 0 := by
      rw [hcount]
      omega
    rw [if_neg hne0, hcount, List.length_erase_of_mem he]
  · intro e' he' c i arr hci harr
    have he2 := (List.Nodup.mem_erase_iff hnodupUsed).mp he'
    rw [show lookupD (mapErase s2.entitySignatures e) e' ∅ =
        lookupD s2.entitySignatures e' ∅ by
      unfold lookupD
      rw [mapLookup_mapErase_ne _ he2.1]]
    exact hS e' he2.2 c i arr hci harr
  · intro p hp e2 hhas
    obtain ⟨cn, parr⟩ := p
    have hl := mapLookup_of_mem_nodup hR.2.2.2.2.1 hp
    have hmem := hL (cn, parr) hp e2 hhas
    have hne : e2 ≠ e := by
      rintro rfl
      rw [hclean cn parr hl] at hhas
      cases hhas
    exact (List.Nodup.mem_erase_iff hnodupUsed).mpr ⟨hne, hmem⟩
  · intro x
    by_cases hee : x = e
    · rw [hee]
      rw [show lookupD (mapErase s2.entitySignatures e) e ∅ = ∅ by
        unfold lookupD
        rw [mapLookup_mapErase_self e hN]
        rfl]
      exact Finset.empty_subset _
    · rw [show lookupD (mapErase s2.entitySignatures e) x ∅ =
          lookupD s2.entitySignatures x ∅ by
        unfold lookupD
        rw [mapLookup_mapErase_ne _ hee]]
      exact hB x

theorem destroyEntity_spec {s : ECSState} {e : Entity} (h : Inv s)
    (he : EntityExists s e = true) :
    (DestroyEntity s e).2 = none ∧
    (DestroyEntity s e).1.availableEntities = e :: s.availableEntities ∧
    (DestroyEntity s e).1.usedEntities = s.usedEntities.erase e ∧
    mapLookup (DestroyEntity s e).1.entitySignatures e = none ∧
    (∀ (c : CName) (arr : ComponentArray Val),
        mapLookup (DestroyEntity s e).1.componentArrays c = some arr →
        arr.HasComponent e = false) ∧
    (∀ p ∈ (DestroyEntity s e).1.systems,
        (e ∈ (p.2 : List Entity) ↔
          lookupD (DestroyEntity s e).1.systemSignatures p.1 ∅ = ∅)) ∧
    Inv (DestroyEntity s e).1 := by
  have he' : e ∈ s.usedEntities := entityExists_iff.mp he
  have hinj : ∀ (i i' : Nat) (c : CName), mapLookup s.componentIDToType i = some c →
      mapLookup s.componentIDToType i' = some c → i = i' := by
    intro i i' c h1 h2
    exact Option.some.inj ((h.reg.2.2.1 i c h1).symm.trans (h.reg.2.2.1 i' c h2))
  have hchar := fun cn => destroyFold_lookup s.componentIDToType
    (lookupD s.entitySignatures e ∅) e hinj (List.range s.componentCount)
    (List.nodup_range _) s.componentArrays cn
  have hnd := destroyFold_nodup s.componentIDToType
    (lookupD s.entitySignatures e ∅) e (List.range s.componentCount)
    s.componentArrays h.reg.2.2.2.2.1
  have hmid := inv_destroyMid h he' hnd hchar
  have hs2 := inv_OSC (e := e) hmid
  have he2 : e ∈ (_OnEntitySignatureChanged { s with
      componentArrays := (List.range s.componentCount).foldl
        (_DestroyStep s.componentIDToType (lookupD s.entitySignatures e ∅) e)
        s.componentArrays,
      entitySignatures := mapInsert s.entitySignatures e ∅ } e).usedEntities := by
    rw [OSC_usedEntities]
    exact he'
  have hclean2 : ∀ (cn : CName) (arr : ComponentArray Val),
      mapLookup (_OnEntitySignatureChanged { s with
          componentArrays := (List.range s.componentCount).foldl
            (_DestroyStep s.componentIDToType (lookupD s.entitySignatures e ∅) e)
            s.componentArrays,
          entitySignatures := mapInsert s.entitySignatures e ∅ } e).componentArrays cn
        = some arr → arr.HasComponent e = false := by
    intro cn arr hl
    rw [OSC_componentArrays] at hl
    exact destroyClean h he' hchar cn arr hl
  have hfin := inv_destroyFinal hs2 he2 hclean2
  rw [destroyEntity_exists he]
  refine ⟨rfl, ?_, ?_, ?_, ?_, ?_, ?_⟩
  · show e :: (_OnEntitySignatureChanged { s with
        componentArrays := (List.range s.componentCount).foldl
          (_DestroyStep s.componentIDToType (lookupD s.entitySignatures e ∅) e)
          s.componentArrays,
        entitySignatures := mapInsert s.entitySignatures e ∅ } e).availableEntities =
      e :: s.availableEntities
    rw [OSC_availableEntities]
  · show (_OnEntitySignatureChanged { s with
        componentArrays := (List.range s.componentCount).foldl
          (_DestroyStep s.componentIDToType (lookupD s.entitySignatures e ∅) e)
          s.componentArrays,
        entitySignatures := mapInsert s.entitySignatures e ∅ } e).usedEntities.erase e =
      s.usedEntities.erase e
    rw [OSC_usedEntities]
  · exact mapLookup_mapErase_self e
      (OSC_entitySigs_nodup _ e (nodupKeys_mapInsert _ _ _ h.sigsNodup))
  · intro c arr hl
    exact hclean2 c arr hl
  · intro p hp
    have hp2 : p ∈ (_OnEntitySignatureChanged { s with
        componentArrays := (List.range s.componentCount).foldl
          (_DestroyStep s.componentIDToType (lookupD s.entitySignatures e ∅) e)
          s.componentArrays,
        entitySignatures := mapInsert s.entitySignatures e ∅ } e).systems := hp
    rw [OSC_systems] at hp2
    obtain ⟨q, hq, rfl⟩ := List.mem_map.mp hp2
    have hq2 : q ∈ s.systems := hq
    have hsig0 : lookupD (mapInsert s.entitySignatures e ∅) e ∅ = ∅ :=
      lookupD_mapInsert_self _ _ _ _
    by_cases hc : lookupD s.systemSignatures q.1 ∅ = ∅
    · have hC : lookupD (mapInsert s.entitySignatures e ∅) e ∅ ∩
          lookupD s.systemSignatures q.1 ∅ = lookupD s.systemSignatures q.1 ∅ := by
        rw [hsig0, hc]
        simp
      rw [if_pos hC]
      constructor
      · intro _
        rw [show lookupD (_OnEntitySignatureChanged { s with
            componentArrays := (List.range s.componentCount).foldl
              (_DestroyStep s.componentIDToType (lookupD s.entitySignatures e ∅) e)
              s.componentArrays,
            entitySignatures := mapInsert s.entitySignatures e ∅ } e).systemSignatures
            (q.1, setInsert q.2 e).1 ∅ = lookupD s.systemSignatures q.1 ∅ from
          OSC_sysSigs_lookupD _ e q.1]
        exact hc
      · intro _
        exact mem_setInsert_self _ _
    · have hC : ¬ (lookupD (mapInsert s.entitySignatures e ∅) e ∅ ∩
          lookupD s.systemSignatures q.1 ∅ = lookupD s.systemSignatures q.1 ∅) := by
        intro hCC
        rw [hsig0, Finset.empty_inter] at hCC
        exact hc hCC.symm
      rw [if_neg hC]
      constructor
      · intro hmem
        exact absurd hmem (not_mem_erase_self (h.sysWF.1 q hq2))
      · intro hEq
        rw [show lookupD (_OnEntitySignatureChanged { s with
            componentArrays := (List.range s.componentCount).foldl
              (_DestroyStep s.componentIDToType (lookupD s.entitySignatures e ∅) e)
              s.componentArrays,
            entitySignatures := mapInsert s.entitySignatures e ∅ } e).systemSignatures
            (q.1, q.2.erase e).1 ∅ = lookupD s.systemSignatures q.1 ∅ from
          OSC_sysSigs_lookupD _ e q.1] at hEq
        exact absurd hEq hc
  · exact hfin

theorem registerComponent_entityCount (s : ECSState) (c : CName) :
    (RegisterComponent s c).1.entityCount = s.entityCount := by
  unfold RegisterComponent
  split
  · rfl
  · split
    · rfl
    · rfl

theorem registerSystem_entityCount (s : ECSState) (t : SName) :
    (RegisterSystem s t).1.entityCount = s.entityCount := by
  unfold RegisterSystem
  split
  · rfl
  · rfl

theorem setSystemSignature_entityCount (s : ECSState) (t : SName) (sg : Signature) :
    (SetSystemSignature s t sg).1.entityCount = s.entityCount := by
  unfold SetSystemSignature
  split
  · rfl
  · split
    · rfl
    · rfl

theorem addComponent_entityCount (s : ECSState) (c : CName) (e : Entity) (v : Val) :
    (AddComponent s c e v).1.entityCount = s.entityCount := by
  unfold AddComponent
  split
  · rfl
  · split
    · rfl
    · rw [OSC_entityCount]

theorem removeComponent_entityCount (s : ECSState) (c : CName) (e : Entity) :
    (RemoveComponent s c e).1.entityCount = s.entityCount := by
  unfold RemoveComponent
  split
  · rfl
  · split
    · rfl
    · rw [OSC_entityCount]

theorem inv_step {s : ECSState} (h : Inv s) (hb : s.entityCount + 100 < 2 ^ 32) :
    ∀ op : Op, Inv (step s op) ∧ (step s op).entityCount ≤ s.entityCount + 1 := by
  intro op
  cases op with
  | registerComponent c =>
    exact ⟨inv_registerComponent h,
      le_trans (le_of_eq (registerComponent_entityCount s c)) (Nat.le_succ _)⟩
  | registerSystem t =>
    exact ⟨inv_registerSystem h,
      le_trans (le_of_eq (registerSystem_entityCount s t)) (Nat.le_succ _)⟩
  | setSystemSignature t sg =>
    exact ⟨inv_setSystemSignature h,
      le_trans (le_of_eq (setSystemSignature_entityCount s t sg)) (Nat.le_succ _)⟩
  | newEntity =>
    obtain ⟨e, -, -, -, -, -, hcnt, hinv⟩ := newEntity_spec h hb
    exact ⟨hinv, le_of_eq hcnt⟩
  | destroyEntity e =>
    by_cases hex : EntityExists s e = true
    · obtain ⟨-, -, hused, -, -, -, hinv⟩ := destroyEntity_spec h hex
      refine ⟨hinv, ?_⟩
      obtain ⟨k2, -, -, hcnt2⟩ := hinv.1
      obtain ⟨k, -, -, hcnt⟩ := h.alloc
      show (DestroyEntity s e).1.entityCount ≤ s.entityCount + 1
      rw [hcnt2, hused, hcnt]
      exact le_trans (List.Sublist.length_le (List.erase_sublist _ _)) (Nat.le_succ _)
    · have hst : (DestroyEntity s e).1 = s := by
        rw [destroyEntity_not_found (by simpa using hex)]
      show Inv (DestroyEntity s e).1 ∧ (DestroyEntity s e).1.entityCount ≤ s.entityCount + 1
      rw [hst]
      exact ⟨h, Nat.le_succ _⟩
  | addComponent c e v =>
    exact ⟨inv_addComponent h,
      le_trans (le_of_eq (addComponent_entityCount s c e v)) (Nat.le_succ _)⟩
  | removeComponent c e =>
    exact ⟨inv_removeComponent h,
      le_trans (le_of_eq (removeComponent_entityCount s c e)) (Nat.le_succ _)⟩

theorem inv_foldl : ∀ (ops : List Op) (s : ECSState), Inv s →
    s.entityCount + ops.length + 100 < 2 ^ 32 →
    Inv (ops.foldl step s) ∧
      (ops.foldl step s).entityCount ≤ s.entityCount + ops.length := by
  intro ops
  induction ops with
  | nil =>
    intro s h _
    exact ⟨h, le_refl _⟩
  | cons op t ih =>
    intro s h hb
    have hlen : (op :: t).length = t.length + 1 := List.length_cons _ _
    rw [hlen] at hb
    have hs1 := inv_step h (by omega) op
    have ht := ih (step s op) hs1.1 (by have := hs1.2; omega)
    refine ⟨ht.1, ?_⟩
    rw [show (op :: t).foldl step s = t.foldl step (step s op) from List.foldl_cons _ _, hlen]
    calc (t.foldl step (step s op)).entityCount
        ≤ (step s op).entityCount + t.length := ht.2
      _ ≤ s.entityCount + (t.length + 1) := by have := hs1.2; omega

theorem inv_run {ops : List Op} (hb : Bounded ops) : Inv (run ops) := by
  have h0 : initState.entityCount = 0 := rfl
  have hb2 : ops.length + 100 < 2 ^ 32 := hb
  exact (inv_foldl ops initState inv_initState (by omega)).1

theorem used_nodup_of_inv {s : ECSState} (h : Inv s) : s.usedEntities.Nodup := by
  obtain ⟨k, -, hperm, -⟩ := h.alloc
  have hmapnd : (((List.range (100 * k)).map (· + 1)) : List Entity).Nodup :=
    (List.nodup_range _).map (add_left_injective 1)
  exact (List.nodup_append.mp (hperm.nodup_iff.mpr hmapnd)).2.1

theorem sigDomain_OSC_insert {s : ECSState} {e : Entity} (hd : SigDomain s)
    (he : e ∈ s.usedEntities) (w : Signature)
    (arrs : List (CName × ComponentArray Val)) :
    SigDomain (_OnEntitySignatureChanged
      { s with componentArrays := arrs,
               entitySignatures := mapInsert s.entitySignatures e w } e) := by
  intro x
  rw [OSC_usedEntities, OSC_entitySigs]
  show (mapLookup (mapInsert (mapInsert s.entitySignatures e w) e
      (lookupD (mapInsert s.entitySignatures e w) e ∅)) x).isSome = true ↔
    x ∈ s.usedEntities
  by_cases hx : x = e
  · rw [hx, mapLookup_mapInsert_self]
    simp only [Option.isSome_some, true_iff]
    exact he
  · rw [mapLookup_mapInsert_ne _ _ hx, mapLookup_mapInsert_ne _ _ hx]
    exact hd x

theorem sigDomain_step {s : ECSState} (h : Inv s) (hd : SigDomain s)
    (hb : s.entityCount + 100 < 2 ^ 32) :
    ∀ op : Op, SigDomain (step s op) := by
  intro op
  cases op with
  | registerComponent c =>
    show SigDomain (RegisterComponent s c).1
    unfold RegisterComponent
    split
    · exact hd
    · split
      · exact hd
      · exact hd
  | registerSystem t =>
    show SigDomain (RegisterSystem s t).1
    unfold RegisterSystem
    split
    · exact hd
    · exact hd
  | setSystemSignature t sg =>
    show SigDomain (SetSystemSignature s t sg).1
    unfold SetSystemSignature
    split
    · exact hd
    · split
      · exact hd
      · exact hd
  | newEntity =>
    obtain ⟨e, -, -, -, hused, hsigs, -, -⟩ := newEntity_spec h hb
    intro x
    show (mapLookup (NewEntity s).1.entitySignatures x).isSome = true ↔
      x ∈ (NewEntity s).1.usedEntities
    rw [hused, hsigs]
    by_cases hx : x = e
    · rw [hx, mapLookup_mapInsert_self]
      simp
    · rw [mapLookup_mapInsert_ne _ _ hx]
      simp only [List.mem_append, List.mem_singleton, hx, or_false]
      exact hd x
  | addComponent c e v =>
    show SigDomain (AddComponent s c e v).1
    by_cases hex : EntityExists s e = true
    · cases harr : mapLookup s.componentArrays c with
      | none =>
        rw [addComponent_unregistered hex harr]
        exact hd
      | some arr =>
        rw [addComponent_guards hex harr]
        exact sigDomain_OSC_insert hd (entityExists_iff.mp hex) _ _
    · rw [addComponent_no_entity (by simpa using hex)]
      exact hd
  | removeComponent c e =>
    show SigDomain (RemoveComponent s c e).1
    by_cases hex : EntityExists s e = true
    · cases harr : mapLookup s.componentArrays c with
      | none =>
        rw [removeComponent_unregistered hex harr]
        exact hd
      | some arr =>
        rw [removeComponent_guards hex harr]
        exact sigDomain_OSC_insert hd (entityExists_iff.mp hex) _ _
    · rw [removeComponent_no_entity (by simpa using hex)]
      exact hd
  | destroyEntity e =>
    show SigDomain (DestroyEntity s e).1
    by_cases hex : EntityExists s e = true
    · have hnodupUsed := used_nodup_of_inv h
      rw [destroyEntity_exists hex]
      intro x
      show (mapLookup (mapErase (_OnEntitySignatureChanged { s with
            componentArrays := (List.range s.componentCount).foldl
              (_DestroyStep s.componentIDToType (lookupD s.entitySignatures e ∅) e)
              s.componentArrays,
            entitySignatures := mapInsert s.entitySignatures e ∅ } e).entitySignatures e)
          x).isSome = true ↔
        x ∈ s.usedEntities.erase e
      by_cases hx : x = e
      · rw [hx, mapLookup_mapErase_self e
          (OSC_entitySigs_nodup _ e (nodupKeys_mapInsert _ _ _ h.sigsNodup))]
        simp only [Option.isSome_none, Bool.false_eq_true, false_iff]
        exact not_mem_erase_self hnodupUsed
      · rw [mapLookup_mapErase_ne _ hx, OSC_entitySigs, mapLookup_mapInsert_ne _ _ hx]
        show (mapLookup (mapInsert s.entitySignatures e ∅) x).isSome = true ↔
          x ∈ s.usedEntities.erase e
        rw [mapLookup_mapInsert_ne _ _ hx, List.mem_erase_of_ne hx]
        exact hd x
    · have hst : (DestroyEntity s e).1 = s := by
        rw [destroyEntity_not_found (by simpa using hex)]
      rw [hst]
      exact hd

theorem sigDomain_foldl : ∀ (ops : List Op) (s : ECSState), Inv s → SigDomain s →
    s.entityCount + ops.length + 100 < 2 ^ 32 → SigDomain (ops.foldl step s) := by
  intro ops
  induction ops with
  | nil =>
    intro s _ hd _
    exact hd
  | cons op t ih =>
    intro s h hd hb
    have hlen : (op :: t).length = t.length + 1 := List.length_cons _ _
    rw [hlen] at hb
    have hs1 := inv_step h (by omega) op
    exact ih (step s op) hs1.1 (sigDomain_step h hd (by omega) op)
      (by have := hs1.2; omega)

theorem sigDomain_run {ops : List Op} (hb : Bounded ops) : SigDomain (run ops) := by
  have h0 : initState.entityCount = 0 := rfl
  have hb2 : ops.length + 100 < 2 ^ 32 := hb
  refine sigDomain_foldl ops initState inv_initState ?_ (by omega)
  intro x
  constructor
  · intro hh
    simp [initState, mapLookup] at hh
  · intro hh
    simp [initState] at hh

theorem run_entityCount_le {ops : List Op} (hb : Bounded ops) :
    (run ops).entityCount ≤ ops.length := by
  have h0 : initState.entityCount = 0 := rfl
  have hb2 : ops.length + 100 < 2 ^ 32 := hb
  have h1 := (inv_foldl ops initState inv_initState (by omega)).2
  show (List.foldl step initState ops).entityCount ≤ ops.length
  omega

theorem run_count_bound {ops : List Op} (hb : Bounded ops) :
    (run ops).entityCount + 100 < 2 ^ 32 := by
  have h1 := run_entityCount_le hb
  have hb2 : ops.length + 100 < 2 ^ 32 := hb
  omega

end InvPreservation

section Claims

/-- C10: the public `AddComponent` is declared to return a reference to the
added component, but no return statement executes on any path (both DEBUG
throw paths and the successful fall-off-the-end path), so the value produced
for the caller is undefined — modelled as the returned `Option Val` being
`none` for every state and every argument. -/
theorem C10_add_component_returns_nothing (s : ECSState) (c : CName) (e : Entity)
    (v : Val) : (AddComponent s c e v).2.2 = none := by
  unfold AddComponent
  split
  · rfl
  · split
    · rfl
    · rfl

/-- C5: destroying an entity that is not live reports the "not found" warning
and is a strict no-op — the returned state is equal to the input state, so all
component stores, signatures, allocator bookkeeping and system matched sets
are unchanged. -/
theorem C5_destroy_dead_noop {s : ECSState} {e : Entity}
    (h : EntityExists s e = false) :
    DestroyEntity s e = (s, some Report.warnDestroyEntityNotFound) :=
  destroyEntity_not_found h

/-- C5 witness: destroying entity 1 in the initial state (never allocated). -/
theorem C5_destroy_dead_noop_witness :
    EntityExists initState 1 = false ∧
    DestroyEntity initState 1 = (initState, some Report.warnDestroyEntityNotFound) :=
  ⟨by decide, C5_destroy_dead_noop (by decide)⟩

/-- C9: counterexample — registering an already-registered system type warns
and is a no-op, but does NOT return the existing registration: the source
returns `nullptr` (modelled `none`), so after `RegisterSystem` has installed
system 0 with matched set `[]`, a second registration returns `none` rather
than `some []`. -/
theorem C9_counterexample : ¬ C9Statement := by
  intro h
  have h1 := (h [Op.registerSystem 0] 0 [] (by decide)).2.2
  exact absurd h1 (by decide)

/-- C9: amended — registering an already-registered system type is reported
as a warning and is a strict no-op on the whole state, but the call returns
the null handle `none` instead of the existing registration. -/
theorem C9_amended {s : ECSState} {t : SName}
    (hdup : (mapLookup s.systems t).isSome = true) :
    RegisterSystem s t = (s, some Report.warnRegisterSystemDuplicate, none) :=
  registerSystem_dup hdup

/-- C9 witness: re-registering system 0 in the state where it is already
registered. -/
theorem C9_amended_witness :
    (mapLookup sC9.systems 0).isSome = true ∧
    RegisterSystem sC9 0 = (sC9, some Report.warnRegisterSystemDuplicate, none) :=
  ⟨by decide, C9_amended (by decide)⟩

/-- C4: signature consistency — in every state reachable by a sequence of
public calls that stays within the entity-ID capacity, for every live entity
and every registered component type, the type's bit is set in the entity's
signature exactly when the type's store holds a component for that entity. -/
theorem C4_signature_consistency {ops : List Op} (hb : Bounded ops) :
    SigConsistent (run ops) :=
  (inv_run hb).2.2.2.1

/-- C4 witness: the state reached by `opsC6`. -/
theorem C4_signature_consistency_witness :
    Bounded opsC6 ∧ SigConsistent (run opsC6) :=
  ⟨by unfold Bounded; decide, C4_signature_consistency (by unfold Bounded; decide)⟩

/-- C8: code bug — the exhaustion guard `if (entityCount > UINT32_MAX)` in
`NewEntity` compares a `uint32_t` against `UINT32_MAX`, which is always false,
so the allocation-exhausted condition `errTooManyEntities` is never reported
for any value a `uint32_t` can hold: the only error the function can produce
is the non-termination of the refill loop.  In particular, with the full ID
space consumed (`entityCount = UINT32_MAX`, state `sFull`), the call still
succeeds and the counter silently wraps to 0. -/
theorem C8_exhaustion_never_reported :
    (∀ s : ECSState, s.entityCount < 2 ^ 32 →
       ∀ r : Report, (NewEntity s).2 = .error r → r ≠ Report.errTooManyEntities) ∧
    sFull.entityCount = UINT32MAX ∧
    (NewEntity sFull).2 = .ok 5 ∧
    (NewEntity sFull).1.entityCount = 0 := by
  refine ⟨?_, rfl, by rfl, by decide⟩
  intro s hlt r hr
  unfold NewEntity at hr
  rw [if_neg (show ¬ s.entityCount > UINT32MAX by unfold UINT32MAX; omega)] at hr
  dsimp only at hr
  split at hr
  · obtain rfl : Report.errRefillLoopDiverges = r := Except.error.inj hr
    decide
  · split at hr
    · obtain rfl : Report.errRefillLoopDiverges = r := Except.error.inj hr
      decide
    · simp at hr

/-- C8 witness: in the wrapped/empty state the only produced error is the
refill-loop divergence, which is not the exhaustion report. -/
theorem C8_exhaustion_never_reported_witness :
    ({ initState with entityCount := UINT32MAX } : ECSState).entityCount < 2 ^ 32 ∧
    (NewEntity { initState with entityCount := UINT32MAX }).2 =
      .error Report.errRefillLoopDiverges ∧
    Report.errRefillLoopDiverges ≠ Report.errTooManyEntities :=
  ⟨by decide, by rfl,
    C8_exhaustion_never_reported.1 { initState with entityCount := UINT32MAX }
      (by decide) Report.errRefillLoopDiverges (by rfl)⟩


/-- C2: swap-remove correctness — removing entity `e` whose slot is not the
last one copies the last element's value into the removed slot, remaps the
previously-last holder `lastE` to the reused index, erases `e`'s mapping and
shrinks the dense array by one, so `GetComponent` on `lastE` returns the same
value as before; and in the concrete scenario (values 10, 20, 30 added for
entities 1, 2, 3, then component removed from 2) the dense array becomes
`[10, 30]` and `Get` on entity 3 still returns 30. -/
theorem C2_swap_remove {a : ComponentArray Val} {e lastE : Entity} {di : Nat}
    (h : a.WF)
    (hdi : mapLookup a.entityToIndex e = some di)
    (hlast : mapLookup a.indexToEntity (a.componentArray.length - 1) = some lastE)
    (hlt : di + 1 < a.componentArray.length) :
    (a.RemoveComponent e).1.componentArray =
      (a.componentArray.set di
        (a.componentArray.getD (a.componentArray.length - 1) default)).dropLast ∧
    mapLookup (a.RemoveComponent e).1.entityToIndex lastE = some di ∧
    mapLookup (a.RemoveComponent e).1.entityToIndex e = none ∧
    (a.RemoveComponent e).1.componentArray.length = a.componentArray.length - 1 ∧
    (a.RemoveComponent e).1.GetComponent lastE = a.GetComponent lastE ∧
    (st3.RemoveComponent 2).1.componentArray = [10, 30] ∧
    (st3.RemoveComponent 2).1.GetComponent 3 = .ok 30 ∧
    st3.GetComponent 3 = .ok 30 := by
  have hhas : a.HasComponent e = true := by
    simp [ComponentArray.HasComponent, hdi]
  have hlne : lastE ≠ e := by
    intro hl
    have hll := h.eti_of_ite hlast
    rw [hl] at hll
    have hde : di = a.componentArray.length - 1 := Option.some.inj (hdi.symm.trans hll)
    omega
  refine ⟨?_, ?_, ?_, ?_, ?_, by decide, by rfl, by rfl⟩
  · rw [ComponentArray.removeComponent_def hhas hdi hlast]
  · rw [ComponentArray.removeComponent_eti_lookup h hhas hdi hlast lastE,
      if_neg hlne, if_pos rfl]
  · rw [ComponentArray.removeComponent_eti_lookup h hhas hdi hlast e, if_pos rfl]
  · exact ComponentArray.removeComponent_length hhas
  · rw [ComponentArray.removeComponent_get_last h hdi hlast hlt,
      ComponentArray.getComponent_eq (h.eti_of_ite hlast)]

/-- C2 witness: the store with values 10, 20, 30 for entities 1, 2, 3;
removing entity 2 (slot 1, not last) relocates entity 3. -/
theorem C2_swap_remove_witness :
    st3.WF ∧ mapLookup st3.entityToIndex 2 = some 1 ∧
    mapLookup st3.indexToEntity (st3.componentArray.length - 1) = some 3 ∧
    1 + 1 < st3.componentArray.length ∧
    ((st3.RemoveComponent 2).1.componentArray =
      (st3.componentArray.set 1
        (st3.componentArray.getD (st3.componentArray.length - 1) default)).dropLast ∧
    mapLookup (st3.RemoveComponent 2).1.entityToIndex 3 = some 1 ∧
    mapLookup (st3.RemoveComponent 2).1.entityToIndex 2 = none ∧
    (st3.RemoveComponent 2).1.componentArray.length = st3.componentArray.length - 1 ∧
    (st3.RemoveComponent 2).1.GetComponent 3 = st3.GetComponent 3 ∧
    (st3.RemoveComponent 2).1.componentArray = [10, 30] ∧
    (st3.RemoveComponent 2).1.GetComponent 3 = .ok 30 ∧
    st3.GetComponent 3 = .ok 30) :=
  ⟨ComponentArray.addComponent_WF (ComponentArray.addComponent_WF
      (ComponentArray.addComponent_WF ComponentArray.wf_empty)),
   by decide, by decide, by decide,
   C2_swap_remove
     (ComponentArray.addComponent_WF (ComponentArray.addComponent_WF
       (ComponentArray.addComponent_WF ComponentArray.wf_empty)))
     (by decide) (by decide) (by decide)⟩

/-- C7: every successful `NewEntity` call from a reachable, within-capacity
state returns a non-zero ID not held by any currently-live entity, marks that
ID live, and gives it an empty signature. -/
theorem C7_new_entity {ops : List Op} (hb : Bounded ops) :
    ∀ e : Entity, (NewEntity (run ops)).2 = .ok e →
      e ≠ 0 ∧ e ∉ (run ops).usedEntities ∧
      e ∈ (NewEntity (run ops)).1.usedEntities ∧
      mapLookup (NewEntity (run ops)).1.entitySignatures e = some ∅ := by
  have hI := inv_run hb
  obtain ⟨e0, h1, h2, h3, h4, h5, -, -⟩ := newEntity_spec hI (run_count_bound hb)
  intro e hok
  rw [h1] at hok
  obtain rfl : e0 = e := Except.ok.inj hok
  refine ⟨h2, h3, ?_, ?_⟩
  · rw [h4]
    exact List.mem_append.mpr (Or.inr (by simp))
  · rw [h5, mapLookup_mapInsert_self]

/-- C7 witness: after `opsC3` the freed ID 1 is handed out again. -/
theorem C7_new_entity_witness :
    Bounded opsC3 ∧ (NewEntity (run opsC3)).2 = .ok 1 ∧
    (1 ≠ 0 ∧ 1 ∉ (run opsC3).usedEntities ∧
      1 ∈ (NewEntity (run opsC3)).1.usedEntities ∧
      mapLookup (NewEntity (run opsC3)).1.entitySignatures 1 = some ∅) :=
  ⟨by unfold Bounded; decide, by rfl,
   C7_new_entity (by unfold Bounded; decide) 1 (by rfl)⟩


/-- C1: counterexample — the match rule is not re-verified for every entity
after every Add/Remove/Destroy call.  After `opsC1` (entity 1 gains component
0 before system 5's signature is set) followed by an `AddComponent` on the
unrelated entity 2, live entity 1 satisfies system 5's required signature but
is missing from its matched set: `_OnEntitySignatureChanged` only fixes up the
entity whose signature just changed. -/
theorem C1_counterexample : ¬ C1Statement := by
  intro h
  have h1 := h opsC1 (Op.addComponent 0 2 7) (by rfl) 1 (by decide)
  have h2 := h1 (5, [2]) (by decide)
  exact absurd (h2.mpr (by decide)) (by decide)

/-- C1: amended match-correctness — after a completed `AddComponent`,
`RemoveComponent` or `DestroyEntity` call on entity `e` from a reachable
within-capacity state, the match rule holds between `e` itself and every
registered system (stale memberships of other entities may persist, see the
counterexample). -/
theorem C1_amended {ops : List Op} (hb : Bounded ops) (c : CName) (e : Entity)
    (v : Val) (he : EntityExists (run ops) e = true) :
    ((mapLookup (run ops).componentArrays c).isSome = true →
       MatchedFor (AddComponent (run ops) c e v).1 e ∧
       MatchedFor (RemoveComponent (run ops) c e).1 e) ∧
    MatchedFor (DestroyEntity (run ops) e).1 e := by
  have hI := inv_run hb
  constructor
  · intro hsome
    obtain ⟨arr, harr⟩ := Option.isSome_iff_exists.mp hsome
    constructor
    · rw [addComponent_guards he harr]
      exact matchedFor_OSC _ e (fun p hp => hI.sysWF.1 p hp)
    · rw [removeComponent_guards he harr]
      exact matchedFor_OSC _ e (fun p hp => hI.sysWF.1 p hp)
  · obtain ⟨-, -, -, h4, -, h6, -⟩ := destroyEntity_spec hI he
    intro p hp
    have h6p := h6 p hp
    rw [show lookupD (DestroyEntity (run ops) e).1.entitySignatures e ∅ = ∅ from by
      unfold lookupD
      rw [h4]
      rfl]
    rw [Finset.subset_empty]
    exact h6p

/-- C1 witness: the state after `opsC6`, mutating entity 1 through component
type 0. -/
theorem C1_amended_witness :
    Bounded opsC6 ∧ EntityExists (run opsC6) 1 = true ∧
    (((mapLookup (run opsC6).componentArrays 0).isSome = true →
       MatchedFor (AddComponent (run opsC6) 0 1 7).1 1 ∧
       MatchedFor (RemoveComponent (run opsC6) 0 1).1 1) ∧
    MatchedFor (DestroyEntity (run opsC6) 1).1 1) :=
  ⟨by unfold Bounded; decide, by decide,
   C1_amended (by unfold Bounded; decide) 0 1 7 (by decide)⟩

/-- C3: counterexample — a destroyed ID can be reissued before its removal
from every system's matched set completes.  After `opsC3`, the destroy of
entity 1 itself inserted 1 into the matched set of system 0 (whose required
signature was never set, so the match test `∅ & sig == sig` passes), and the
next `NewEntity` hands the ID 1 out again while it is still a member. -/
theorem C3_counterexample : ¬ C3Statement := by
  intro h
  have h3 := h.2.2 opsC3 1 (by rfl)
  exact h3.2.2 (0, [1]) (by decide) (by decide)

/-- C3: amended recycling — over reachable within-capacity states: live IDs
are unique; a freshly issued ID was not live before the call; a destroyed ID
is pushed onto the available pool at once; and a freshly issued ID has no
entry in the signature map and no component in any store.  (Its possible
membership in matched sets of systems without a set signature is the code bug
shown by the counterexample and is not asserted.) -/
theorem C3_amended {ops : List Op} (hb : Bounded ops) :
    (run ops).usedEntities.Nodup ∧
    (∀ e : Entity, (NewEntity (run ops)).2 = .ok e → e ∉ (run ops).usedEntities) ∧
    (∀ e ∈ (run ops).usedEntities,
       e ∈ (DestroyEntity (run ops) e).1.availableEntities) ∧
    (∀ e : Entity, (NewEntity (run ops)).2 = .ok e →
       mapLookup (run ops).entitySignatures e = none ∧
       ∀ p ∈ (run ops).componentArrays,
         (p.2 : ComponentArray Val).HasComponent e = false) := by
  have hI := inv_run hb
  obtain ⟨e0, h1, -, h3, -, -, -, -⟩ := newEntity_spec hI (run_count_bound hb)
  have hfresh : ∀ e : Entity, (NewEntity (run ops)).2 = .ok e →
      e ∉ (run ops).usedEntities := by
    intro e hok
    rw [h1] at hok
    exact (Except.ok.inj hok) ▸ h3
  refine ⟨used_nodup_of_inv hI, hfresh, ?_, ?_⟩
  · intro e he
    rw [(destroyEntity_spec hI (entityExists_iff.mpr he)).2.1]
    exact List.mem_cons_self _ _
  · intro e hok
    have hf := hfresh e hok
    constructor
    · cases hl : mapLookup (run ops).entitySignatures e with
      | none => rfl
      | some w =>
        have hm := (sigDomain_run hb e).mp (by rw [hl]; rfl)
        exact absurd hm hf
    · intro p hp
      cases hhas : (p.2 : ComponentArray Val).HasComponent e with
      | false => rfl
      | true => exact absurd (hI.onlyLive p hp e hhas) hf

/-- C3 witness: the trace `opsC3` — ID 1 is destroyed and will be reissued
clean of signature and component data. -/
theorem C3_amended_witness :
    Bounded opsC3 ∧
    ((run opsC3).usedEntities.Nodup ∧
    (∀ e : Entity, (NewEntity (run opsC3)).2 = .ok e → e ∉ (run opsC3).usedEntities) ∧
    (∀ e ∈ (run opsC3).usedEntities,
       e ∈ (DestroyEntity (run opsC3) e).1.availableEntities) ∧
    (∀ e : Entity, (NewEntity (run opsC3)).2 = .ok e →
       mapLookup (run opsC3).entitySignatures e = none ∧
       ∀ p ∈ (run opsC3).componentArrays,
         (p.2 : ComponentArray Val).HasComponent e = false)) :=
  ⟨by unfold Bounded; decide, C3_amended (by unfold Bounded; decide)⟩


/-- C6: counterexample — a redundant `AddComponent` (type already held) on a
live entity is reported and leaves store and signature alone, but does NOT
leave the system matched sets unchanged: the call still propagates the
(unchanged) signature, which re-evaluates the match rule.  After `opsC6`,
entity 1 already holds component 0 and system 5's matched set is stale
(empty); the redundant add inserts 1 into it. -/
theorem C6_counterexample : ¬ C6Statement := by
  intro h
  have h1 := (h opsC6 0 1 7 ⟨[7], [(1, 0)], [(0, 1)]⟩ (by decide) (by decide)).1
    (by decide)
  exact absurd h1.2.2.2 (by decide)

/-- C6: amended — from a reachable within-capacity state, a redundant add
(type already held) or redundant remove (type not held) on a live entity is
reported with the corresponding warning and leaves the component store
registry and the entity signatures unchanged; the system matched sets are not
necessarily unchanged — instead the call re-runs the matching for the touched
entity, so afterwards the match rule holds for it. -/
theorem C6_amended {ops : List Op} (hb : Bounded ops) {c : CName} {e : Entity}
    (v : Val) {arr : ComponentArray Val}
    (he : EntityExists (run ops) e = true)
    (harr : mapLookup (run ops).componentArrays c = some arr) :
    (arr.HasComponent e = true →
       (AddComponent (run ops) c e v).2.1 = some Report.warnAddComponentAlreadyHas ∧
       (AddComponent (run ops) c e v).1.componentArrays = (run ops).componentArrays ∧
       (AddComponent (run ops) c e v).1.entitySignatures = (run ops).entitySignatures ∧
       MatchedFor (AddComponent (run ops) c e v).1 e) ∧
    (arr.HasComponent e = false →
       (RemoveComponent (run ops) c e).2 = some Report.warnRemoveComponentDoesNotHave ∧
       (RemoveComponent (run ops) c e).1.componentArrays = (run ops).componentArrays ∧
       (RemoveComponent (run ops) c e).1.entitySignatures = (run ops).entitySignatures ∧
       MatchedFor (RemoveComponent (run ops) c e).1 e) := by
  have hI := inv_run hb
  have hd := sigDomain_run hb
  have he' : e ∈ (run ops).usedEntities := entityExists_iff.mp he
  obtain ⟨w, hw⟩ := Option.isSome_iff_exists.mp ((hd e).mpr he')
  have hlw : lookupD (run ops).entitySignatures e ∅ = w := by
    unfold lookupD
    rw [hw]
    rfl
  have hsome : (mapLookup (run ops).componentTypeToID c).isSome = true := by
    rw [← hI.reg.1 c, harr]
    rfl
  obtain ⟨i0, hci⟩ := Option.isSome_iff_exists.mp hsome
  have hgetD : (mapLookup (run ops).componentTypeToID c).getD 0 = i0 := by
    rw [hci]
    rfl
  have hbit : i0 ∈ w ↔ arr.HasComponent e = true := by
    rw [← hlw]
    exact hI.sig e he' c i0 arr hci harr
  have hsigsE : (_OnEntitySignatureChanged (run ops) e).entitySignatures =
      (run ops).entitySignatures := by
    rw [OSC_entitySigs, hlw]
    exact mapInsert_lookup_self hw
  constructor
  · intro hhas
    have harrs : mapInsert (run ops).componentArrays c arr =
        (run ops).componentArrays := mapInsert_lookup_self harr
    have hsigs1 : mapInsert (run ops).entitySignatures e
        (insert ((mapLookup (run ops).componentTypeToID c).getD 0)
          (lookupD (run ops).entitySignatures e ∅)) = (run ops).entitySignatures := by
      rw [hgetD, hlw, Finset.insert_eq_self.mpr (hbit.mpr hhas)]
      exact mapInsert_lookup_self hw
    have hadd : AddComponent (run ops) c e v =
        (_OnEntitySignatureChanged (run ops) e,
         some Report.warnAddComponentAlreadyHas, none) := by
      rw [addComponent_guards he harr, ComponentArray.addComponent_fst_of_has v hhas]
      dsimp only
      rw [harrs, hsigs1]
    refine ⟨by rw [hadd], ?_, ?_, ?_⟩
    · rw [hadd]
      exact OSC_componentArrays _ e
    · rw [hadd]
      exact hsigsE
    · rw [hadd]
      exact matchedFor_OSC _ e hI.sysWF.1
  · intro hhas
    have harrs : mapInsert (run ops).componentArrays c arr =
        (run ops).componentArrays := mapInsert_lookup_self harr
    have hsigs1 : mapInsert (run ops).entitySignatures e
        ((lookupD (run ops).entitySignatures e ∅).erase
          ((mapLookup (run ops).componentTypeToID c).getD 0)) =
        (run ops).entitySignatures := by
      rw [hgetD, hlw, Finset.erase_eq_self.mpr (fun hmem => by
        rw [hbit.mp hmem] at hhas
        cases hhas)]
      exact mapInsert_lookup_self hw
    have hrem : RemoveComponent (run ops) c e =
        (_OnEntitySignatureChanged (run ops) e,
         some Report.warnRemoveComponentDoesNotHave) := by
      rw [removeComponent_guards he harr, ComponentArray.removeComponent_fst_of_not_has hhas]
      dsimp only
      rw [harrs, hsigs1]
    refine ⟨by rw [hrem], ?_, ?_, ?_⟩
    · rw [hrem]
      exact OSC_componentArrays _ e
    · rw [hrem]
      exact hsigsE
    · rw [hrem]
      exact matchedFor_OSC _ e hI.sysWF.1

/-- C6 witness: the state after `opsC6`, redundant add/remove of component 0
on entity 1 (which holds it, so the redundant-remove branch is vacuous). -/
theorem C6_amended_witness :
    Bounded opsC6 ∧ EntityExists (run opsC6) 1 = true ∧
    mapLookup (run opsC6).componentArrays 0 =
      some (⟨[7], [(1, 0)], [(0, 1)]⟩ : ComponentArray Val) ∧
    (((⟨[7], [(1, 0)], [(0, 1)]⟩ : ComponentArray Val).HasComponent 1 = true →
       (AddComponent (run opsC6) 0 1 7).2.1 = some Report.warnAddComponentAlreadyHas ∧
       (AddComponent (run opsC6) 0 1 7).1.componentArrays = (run opsC6).componentArrays ∧
       (AddComponent (run opsC6) 0 1 7).1.entitySignatures = (run opsC6).entitySignatures ∧
       MatchedFor (AddComponent (run opsC6) 0 1 7).1 1) ∧
    ((⟨[7], [(1, 0)], [(0, 1)]⟩ : ComponentArray Val).HasComponent 1 = false →
       (RemoveComponent (run opsC6) 0 1).2 = some Report.warnRemoveComponentDoesNotHave ∧
       (RemoveComponent (run opsC6) 0 1).1.componentArrays = (run opsC6).componentArrays ∧
       (RemoveComponent (run opsC6) 0 1).1.entitySignatures = (run opsC6).entitySignatures ∧
       MatchedFor (RemoveComponent (run opsC6) 0 1).1 1)) :=
  ⟨by unfold Bounded; decide, by decide, by decide,
   C6_amended (by unfold Bounded; decide) 7 (by decide) (by decide)⟩

end Claims

end ecs
